import Mathlib

/-!
Verification of the subtitle generator's core against its specification.

The definitions below are a shallow embedding of the Python sources:
`app/video_processor.py` (subtitle synthesis pipeline), `app/youtube_downloader.py`
(acquisition worker / retry controller) and `app/main.py` (task registry and
orchestration).  Python strings are modelled as Lean `String` (`List Char` data);
the handful of Python string primitives the code uses (`str.strip`,
`str.split('\n')`, `'\n'.join`, `in`, `str.isdigit`, decimal formatting) are
defined here over character lists, faithful to CPython semantics for the
character sets in play.  Python floats are modelled as exact rationals; every
place where a claim depends on a concrete float value, the corresponding
rational has been checked to produce the same result as the IEEE-754 double
computation performed by CPython.
-/

set_option linter.unusedVariables false

namespace SubGen

/-- Python `str.strip()`: remove leading and trailing whitespace. -/
def stripChars (l : List Char) : List Char :=
  ((l.dropWhile Char.isWhitespace).reverse.dropWhile Char.isWhitespace).reverse

/-- Python `str.split('\n')`: split at every newline, keeping empty pieces. -/
def splitNl : List Char → List (List Char)
  | [] => [[]]
  | c :: cs =>
    if c = '\n' then [] :: splitNl cs
    else
      match splitNl cs with
      | [] => [[c]]
      | l :: ls => (c :: l) :: ls

/-- Python `'\n'.join(lines)`. -/
def joinNlChars : List (List Char) → List Char
  | [] => []
  | [l] => l
  | l :: ls => l ++ '\n' :: joinNlChars ls

/-- Substring occurrence test over character lists (Python `pat in s`). -/
def containsSeq (pat : List Char) : List Char → Bool
  | [] => decide (pat = [])
  | c :: cs => pat.isPrefixOf (c :: cs) || containsSeq pat cs

/-- Python `str.strip()` on `String`. -/
def pyStrip (s : String) : String := ⟨stripChars s.data⟩

/-- Python `s.split('\n')` on `String`. -/
def pySplitNl (s : String) : List String := (splitNl s.data).map (⟨·⟩)

/-- Python `'\n'.join(lines)` on `String`. -/
def pyJoinNl (ls : List String) : String := ⟨joinNlChars (ls.map String.data)⟩

/-- Python `pat in s` on `String`. -/
def pyContains (s pat : String) : Bool := containsSeq pat.data s.data

/-- Python `str.isdigit()` (ASCII inputs): nonempty and all characters digits. -/
def isdigitStr (s : String) : Bool := !s.data.isEmpty && s.data.all Char.isDigit

/-- Python `''.join` of a list of strings. -/
def strConcat : List String → String
  | [] => ""
  | s :: rest => s ++ strConcat rest

/-- Decimal digit character for a value `0 ≤ d ≤ 9`. -/
def digitChar (d : Nat) : Char := Char.ofNat (48 + d)

/-- Fuel-driven core of `natChars`; `fuel > n` always suffices. -/
def natCharsAux : Nat → Nat → List Char
  | 0, _ => []
  | fuel + 1, n =>
    if n < 10 then [digitChar n]
    else natCharsAux fuel (n / 10) ++ [digitChar (n % 10)]

/-- Decimal representation of a natural number (Python `str(n)`). -/
def natChars (n : Nat) : List Char := natCharsAux (n + 1) n

/-- Python `f"{z:0wd}"`: zero-pad a decimal integer to width `w`
(the sign, when present, counts toward the width and precedes the padding). -/
def pyFormat0d (w : Nat) (z : ℤ) : List Char :=
  if z < 0 then '-' :: List.replicate (w - 1 - (natChars z.natAbs).length) '0' ++ natChars z.natAbs
  else List.replicate (w - (natChars z.toNat).length) '0' ++ natChars z.toNat

/-- Python `x % y` for floats with `y > 0`, modelled exactly on rationals. -/
def qmod (x y : ℚ) : ℚ := x - y * ⌊x / y⌋

/-- Embeds `VideoProcessor.format_srt_timestamp` (video_processor.py:226-241).
`hours = int(seconds // 3600)`, `minutes = int((seconds % 3600) // 60)`,
`secs = int(seconds % 60)`, `milliseconds = int((seconds % 1) * 1000)`,
rendered as `f"{hours:02d}:{minutes:02d}:{secs:02d},{milliseconds:03d}"`.
`int()` truncation coincides with the floor here because Python `%` with a
positive divisor returns a value in `[0, divisor)`, and `seconds // 3600`
is already an integer-valued floor. -/
def format_srt_timestamp (seconds : ℚ) : String :=
  let hours : ℤ := ⌊seconds / 3600⌋
  let minutes : ℤ := ⌊qmod seconds 3600 / 60⌋
  let secs : ℤ := ⌊qmod seconds 60⌋
  let milliseconds : ℤ := ⌊qmod seconds 1 * 1000⌋
  ⟨pyFormat0d 2 hours ++ ':' :: pyFormat0d 2 minutes ++ ':' :: pyFormat0d 2 secs
    ++ ',' :: pyFormat0d 3 milliseconds⟩

/-- One Whisper transcription segment `{start_seconds, end_seconds, text}`
(`stop` models the Python key `end`, a reserved word in Lean). -/
structure Segment where
  start : ℚ
  stop : ℚ
  text : String
deriving DecidableEq

/-- One SRT entry `f"{i}\n{start_time} --> {end_time}\n{text}\n\n"`
(video_processor.py:255-262, with `text = segment['text'].strip()`). -/
def srt_entry (i : Nat) (s : Segment) : String :=
  (⟨natChars i⟩ : String) ++ "\n" ++ format_srt_timestamp s.start ++ " --> "
    ++ format_srt_timestamp s.stop ++ "\n" ++ pyStrip s.text ++ "\n\n"

/-- The SRT entries for `enumerate(segments, start)`. -/
def srtEntries : Nat → List Segment → List String
  | _, [] => []
  | i, s :: rest => srt_entry i s :: srtEntries (i + 1) rest

/-- Embeds `VideoProcessor.generate_srt_content` (video_processor.py:243-264):
entries for `enumerate(segments, 1)`, concatenated with `''.join`. -/
def generate_srt_content (segments : List Segment) : String :=
  strConcat (srtEntries 1 segments)

/-- Abstract state of the OpenAI translation backend used by
`VideoProcessor._translate_with_gpt`: the `OPENAI_API_KEY` environment
variable, and the outcome of a chat-completion request (`Except.error`
covers a raised request error or a malformed response). -/
structure GptEnv where
  api_key : Option String
  respond : String → String → Except String String

/-- Embeds `VideoProcessor._translate_with_gpt` (video_processor.py:182-224):
missing/empty/placeholder API key returns the input; a request that raises is
caught and returns the input; a successful response is returned `.strip()`ed. -/
def translate_with_gpt (env : GptEnv) (text : String) (target_language : String) : String :=
  match env.api_key with
  | none => text
  | some k =>
    if k = "" ∨ k = "your-api-key-here" then text
    else
      match env.respond text target_language with
      | .error _ => text
      | .ok t => pyStrip t

/-- The `language_names` mapping of `translate_srt_content`
(video_processor.py:114-131). -/
def language_names : List (String × String) :=
  [("es", "Spanish"), ("fr", "French"), ("de", "German"), ("it", "Italian"),
   ("pt", "Portuguese"), ("ru", "Russian"), ("ja", "Japanese"), ("ko", "Korean"),
   ("zh", "Chinese"), ("ar", "Arabic"), ("hi", "Hindi"), ("nl", "Dutch"),
   ("sv", "Swedish"), ("pl", "Polish"), ("tr", "Turkish"), ("yo", "Yoruba")]

/-- `language_names.get(target_language, target_language)`. -/
def targetLangName (target_language : String) : String :=
  match language_names.lookup target_language with
  | some n => n
  | none => target_language

/-- Embeds the inner `while` of `translate_srt_content`
(video_processor.py:156-158): collect stripped text lines until a blank or
all-digit line; returns the collected lines and the unconsumed remainder. -/
def collectText : List String → List String × List String
  | [] => ([], [])
  | l :: rest =>
    if pyStrip l ≠ "" ∧ isdigitStr (pyStrip l) = false then
      let p := collectText rest
      (pyStrip l :: p.1, p.2)
    else ([], l :: rest)

theorem collectText_snd_length : ∀ xs : List String, (collectText xs).2.length ≤ xs.length := by
  intro xs
  induction xs with
  | nil => simp [collectText]
  | cons l rest ih =>
    simp only [collectText]
    split
    · simpa using Nat.le_succ_of_le ih
    · simp

/-- Embeds the outer scanning `while` loop of `translate_srt_content`
(video_processor.py:140-174), producing the `translated_lines` list: an
all-digit (stripped) line is kept; the following line is kept verbatim when it
contains `-->` (otherwise it is silently skipped); the block's stripped text
lines are joined with spaces, passed through `tr`, and followed by an empty
line; any other blank line contributes an empty line. -/
def scanLines (tr : String → String) : List String → List String
  | [] => []
  | l :: rest =>
    if isdigitStr (pyStrip l) then
      match rest with
      | [] => [pyStrip l]
      | nxt :: rest2 =>
        if pyContains nxt "-->" then
          let p := collectText rest2
          pyStrip l :: nxt ::
            ((if p.1.isEmpty then [] else [tr (String.intercalate " " p.1)]) ++ "" :: scanLines tr p.2)
        else pyStrip l :: scanLines tr rest2
    else
      (if pyStrip l = "" then [""] else []) ++ scanLines tr rest
  termination_by ls => ls.length
  decreasing_by
    all_goals simp_wf
    all_goals try have h9 := collectText_snd_length rest
    all_goals omega

/-- Embeds `VideoProcessor.translate_srt_content` (video_processor.py:94-180):
target `"en"` returns the content unchanged; otherwise the content is
`.strip().split('\n')`-ed, scanned block-by-block translating only the text
lines, and reassembled with `'\n'.join`.  The `try` body never raises (the
per-text translator swallows its own failures), so the `except` fallback at
line 178-180 is unreachable. -/
def translate_srt_content (env : GptEnv) (srt_content : String) (target_language : String) : String :=
  if target_language = "en" then srt_content
  else
    pyJoinNl (scanLines (fun t => translate_with_gpt env t (targetLangName target_language))
      (pySplitNl (pyStrip srt_content)))

/-- The same block scan as `scanLines`, abstracted as a parser from subtitle
text to (index line, timing line, joined text) triples — the decomposition the
specification's round-trip property is stated over.  Control flow mirrors
`translate_srt_content`'s loop exactly; a block contributes a triple precisely
when its collected text is nonempty. -/
def parseBlocksAux : List String → List (String × String × String)
  | [] => []
  | l :: rest =>
    if isdigitStr (pyStrip l) then
      match rest with
      | [] => []
      | nxt :: rest2 =>
        if pyContains nxt "-->" then
          let p := collectText rest2
          (if p.1.isEmpty then [] else [(pyStrip l, nxt, String.intercalate " " p.1)]) ++
            parseBlocksAux p.2
        else parseBlocksAux rest2
    else parseBlocksAux rest
  termination_by ls => ls.length
  decreasing_by
    all_goals simp_wf
    all_goals try have h9 := collectText_snd_length rest
    all_goals omega

/-- Parse subtitle text block-by-block into index/timing/text triples, after
the same `.strip().split('\n')` preprocessing the source's scanner applies. -/
def parseBlocks (content : String) : List (String × String × String) :=
  parseBlocksAux (pySplitNl (pyStrip content))

/-- Re-serialize one parsed triple in the source's SRT entry layout
`f"{index}\n{timing}\n{text}\n\n"`. -/
def serialize_block (t : String × String × String) : String :=
  t.1 ++ "\n" ++ t.2.1 ++ "\n" ++ t.2.2 ++ "\n\n"

/-- Re-serialize a parsed triple list with `''.join`. -/
def serialize_blocks (ts : List (String × String × String)) : String :=
  strConcat (ts.map serialize_block)

/-! ### Python values and the task registry (`app/main.py`) -/

/-- Python values stored in a task's status record. -/
inductive PyVal where
  | str : String → PyVal
  | num : ℚ → PyVal
  | bool : Bool → PyVal
  | none : PyVal
  | dict : List (String × PyVal) → PyVal

/-- A Python dict with string keys, as an insertion-ordered association list. -/
abbrev Assoc := List (String × PyVal)

/-- Dictionary key lookup. -/
def lookupKey (k : String) : Assoc → Option PyVal
  | [] => Option.none
  | (k', v) :: rest => if k' = k then some v else lookupKey k rest

/-- Set one key: replace in place when present, else append (Python dict semantics). -/
def dictSet : Assoc → String → PyVal → Assoc
  | [], k, v => [(k, v)]
  | (k', v') :: rest, k, v =>
    if k' = k then (k', v) :: rest else (k', v') :: dictSet rest k v

/-- Python `d.update(u)`. -/
def dictUpdate (d : Assoc) (u : Assoc) : Assoc :=
  u.foldl (fun acc kv => dictSet acc kv.1 kv.2) d

/-- Remove a key when present (Python `if k in d: del d[k]`). -/
def delKey (k : String) : Assoc → Assoc
  | [] => []
  | (k', v) :: rest => if k' = k then rest else (k', v) :: delKey k rest

/-- Python truthiness for the values above. -/
def pyTruthy : PyVal → Bool
  | .str s => s ≠ ""
  | .num q => q ≠ 0
  | .bool b => b
  | .none => false
  | .dict d => !d.isEmpty

/-- A raised `HTTPException`. -/
structure HTTPError where
  status_code : Nat
  detail : String
deriving DecidableEq

/-- `os.path.basename` for the forward-slash paths built by this code. -/
def pathName (p : String) : String := (p.splitOn "/").getLastD ""

/-- Split a file name at its last dot (no suffix when the only dot leads). -/
def stemExt (n : List Char) : List Char × List Char :=
  let r := n.reverse
  let ext_r := r.takeWhile (· ≠ '.')
  let rest_r := r.dropWhile (· ≠ '.')
  match rest_r with
  | [] => (n, [])
  | _ :: stem_r => if stem_r = [] then (n, []) else (stem_r.reverse, '.' :: ext_r.reverse)

/-- `pathlib.Path(p).stem`. -/
def pathStem (p : String) : String := ⟨(stemExt (pathName p).data).1⟩

/-- `pathlib.Path(p).suffix`. -/
def pathSuffix (p : String) : String := ⟨(stemExt (pathName p).data).2⟩

/-- `os.path.join` for the relative two-component joins this code performs. -/
def pyOsJoin (a b : String) : String := a ++ "/" ++ b

/-- The shared upload directory configured in main.py:64 (project-relative name). -/
def UPLOAD_DIR : String := "uploads"

/-- The shared output directory configured in main.py:65 (project-relative name). -/
def OUTPUT_DIR : String := "outputs"

/-! ### The subtitle pipeline (`VideoProcessor`, video_processor.py) -/

/-- Outcomes of the effectful collaborators of one
`generate_subtitles_with_video` run: ffmpeg audio extraction, Whisper
transcription, the translation backend, the two ffmpeg muxing strategies of
`embed_soft_subtitles`, and the random hex infix of the output file name. -/
structure ProcEnv where
  extract : Except String (String × ℚ)
  transcribe : Except String (List Segment)
  gpt : GptEnv
  muxPrimary : Bool
  muxAlt : Bool
  muxErrMsg : String
  uuidHex : String

/-- Embeds `VideoProcessor.embed_soft_subtitles` (video_processor.py:317-384):
the primary mux is tried, then the alternative; if both fail the method raises
`f"Failed to embed subtitles: {e}"`. -/
def embed_soft_subtitles (env : ProcEnv) (video_path srt_path output_dir language : String) :
    Except String String :=
  let output_path := pyOsJoin output_dir (pathStem video_path ++ "_with_subtitles" ++ pathSuffix video_path)
  if env.muxPrimary then .ok output_path
  else if env.muxAlt then .ok output_path
  else .error ("Failed to embed subtitles: " ++ env.muxErrMsg)

/-- Embeds `VideoProcessor.generate_subtitles_with_video`
(video_processor.py:386-460): extract audio, transcribe, format SRT, translate
when the target is not `"en"`, write the subtitle file, then optionally embed;
an embedding failure is caught and yields no video artifact (the subtitle path
is still returned).  Extraction or transcription failure propagates as the
exception.  The `finally` clause only unlinks the temporary audio file. -/
def generate_subtitles_with_video (env : ProcEnv) (video_file_path output_dir : String)
    (embed_subtitles : Bool) (language : String) : Except String (String × Option String) := do
  let output_filename := pathStem video_file_path ++ "_" ++ env.uuidHex ++ ".srt"
  let srt_output_path := pyOsJoin output_dir output_filename
  let _ ← env.extract
  let transcription_result ← env.transcribe
  let srt_content := generate_srt_content transcription_result
  let _srt_content :=
    if language ≠ "en" then translate_srt_content env.gpt srt_content language else srt_content
  let video_output_path : Option String :=
    if embed_subtitles then
      match embed_soft_subtitles env video_file_path srt_output_path output_dir language with
      | .ok p => some p
      | .error _ => Option.none
    else Option.none
  return (srt_output_path, video_output_path)

/-- `start_time` of a record (always present and numeric in records this code builds). -/
def getNum (rec : Assoc) (k : String) : ℚ :=
  match lookupKey k rec with
  | some (.num q) => q
  | _ => 0

/-- The record created by `upload_video` (main.py:242-251). -/
def initial_upload_record (filename file_path : String) (start_time : ℚ)
    (embed_subtitles : Bool) (language : String) : Assoc :=
  [("status", .str "uploaded"), ("filename", .str filename), ("file_path", .str file_path),
   ("start_time", .num start_time), ("progress", .num 0),
   ("message", .str "File uploaded successfully"),
   ("embed_subtitles", .bool embed_subtitles), ("language", .str language)]

/-- Embeds `process_video_task` (main.py:274-343): mark the record
`processing`, run the pipeline, then mark it `completed` with the artifact
fields (`video_path`/`video_filename` only when embedding yielded a video), or
mark it `error` on an escaping exception.  The `finally` clause only unlinks
the uploaded source file. -/
def process_video_task (env : ProcEnv) (rec : Assoc) (file_path : String)
    (embed_subtitles : Bool) (language : String) (now : ℚ) : Assoc :=
  let rec1 := dictUpdate rec [("status", .str "processing"), ("progress", .num 25),
    ("message", .str "Extracting audio from video...")]
  match generate_subtitles_with_video env file_path OUTPUT_DIR embed_subtitles language with
  | .ok (srt_path, video_path) =>
    let processing_time := now - getNum rec1 "start_time"
    let result_data : Assoc := [("status", .str "completed"), ("progress", .num 100),
      ("message", .str "Subtitles generated successfully"),
      ("srt_path", .str srt_path), ("srt_filename", .str (pathName srt_path)),
      ("processing_time", .num processing_time)]
    let result_data :=
      match video_path with
      | some vp => dictUpdate result_data [("video_path", .str vp),
          ("video_filename", .str (pathName vp)),
          ("message", .str "Subtitles and video with embedded subtitles generated successfully")]
      | Option.none => result_data
    dictUpdate rec1 result_data
  | .error e =>
    dictUpdate rec1 [("status", .str "error"), ("progress", .num 0),
      ("message", .str ("Processing failed: " ++ e))]

/-- Embeds `get_status` (main.py:345-367): unknown identifiers raise 404
`"Task not found"`; otherwise a copy of the record with the keys
`"file_path"` and `"subtitle_path"` removed is returned. -/
def get_status (processing_status : List (String × Assoc)) (task_id : String) :
    Except HTTPError Assoc :=
  match processing_status.lookup task_id with
  | Option.none => .error ⟨404, "Task not found"⟩
  | some status => .ok (delKey "subtitle_path" (delKey "file_path" status))

/-! ### The acquisition worker and retry controller (`app/youtube_downloader.py`) -/

/-- What one download attempt's worker process does: hang past the timeout,
put one `(success, file_path, title_or_error)` message on the queue, or die
leaving the queue empty. -/
inductive AttemptOutcome where
  | hang
  | msg (success : Bool) (file_path : Option String) (title_or_error : String)
  | noResult

/-- The dict returned by `YouTubeDownloader.download_video`. -/
structure DownloadResult where
  success : Bool
  file_path : Option String
  title : Option String
  error : Option String
deriving DecidableEq

/-- Observable side effects of the retry loop: an attempt starting, a hung
worker being terminated, and a backoff sleep of the given seconds. -/
inductive DlEvent where
  | attemptStart (n : Nat)
  | terminated
  | slept (seconds : Nat)
deriving DecidableEq

/-- The success verification of youtube_downloader.py:215:
`file_path and os.path.exists(file_path) and os.path.getsize(file_path) > 0`;
`fs` gives each existing path's size. -/
def fileOk (fs : String → Option Nat) : Option String → Bool
  | Option.none => false
  | some p =>
    match fs p with
    | Option.none => false
    | some sz => sz > 0

/-- Embeds the retry loop of `YouTubeDownloader.download_video`
(youtube_downloader.py:179-271), recursing on the number of remaining
attempts (`remaining + attempt = max_retries + 1` at every call): a hung
worker is terminated and counted as a timeout; a reported success whose file
is missing or empty is counted as a failure; between failed attempts the loop
sleeps `delay` and doubles it; exhausting the loop returns the branch's
terminal failure dict.  The fuel-`0` case is the `return` after the `for`
(reached only when `max_retries = 0`). -/
def download_attempts (outcomes : Nat → AttemptOutcome) (fs : String → Option Nat)
    (timeout : Nat) : Nat → Nat → Nat → DownloadResult × List DlEvent
  | 0, _, _ =>
    ({success := false, file_path := Option.none, title := Option.none,
      error := some "All download attempts failed"}, [])
  | remaining + 1, attempt, delay =>
    match outcomes attempt with
    | .hang =>
      if remaining = 0 then
        ({success := false, file_path := Option.none, title := Option.none,
          error := some ("Download timeout after " ++ (⟨natChars timeout⟩ : String) ++ "s")},
         [.attemptStart attempt, .terminated])
      else
        let r := download_attempts outcomes fs timeout remaining (attempt + 1) (delay * 2)
        (r.1, .attemptStart attempt :: .terminated :: .slept delay :: r.2)
    | .msg true fp title =>
      if fileOk fs fp then
        ({success := true, file_path := fp, title := some title, error := Option.none},
         [.attemptStart attempt])
      else if remaining = 0 then
        ({success := false, file_path := Option.none, title := Option.none,
          error := some "Downloaded file not found or empty"}, [.attemptStart attempt])
      else
        let r := download_attempts outcomes fs timeout remaining (attempt + 1) (delay * 2)
        (r.1, .attemptStart attempt :: .slept delay :: r.2)
    | .msg false _ err =>
      if remaining = 0 then
        ({success := false, file_path := Option.none, title := Option.none, error := some err},
         [.attemptStart attempt])
      else
        let r := download_attempts outcomes fs timeout remaining (attempt + 1) (delay * 2)
        (r.1, .attemptStart attempt :: .slept delay :: r.2)
    | .noResult =>
      if remaining = 0 then
        ({success := false, file_path := Option.none, title := Option.none,
          error := some "No result from download worker"}, [.attemptStart attempt])
      else
        let r := download_attempts outcomes fs timeout remaining (attempt + 1) (delay * 2)
        (r.1, .attemptStart attempt :: .slept delay :: r.2)

/-- The downloader object (`YouTubeDownloader.__init__`, youtube_downloader.py:34-64);
`rate_limit` is stored untyped because one caller passes a string. -/
structure YouTubeDownloader where
  download_dir : String
  parallel : Bool
  audio_only : Bool
  max_retries : Nat
  rate_limit : PyVal
  per_video_timeout : Nat
  max_resolution : Nat

/-- Embeds `YouTubeDownloader.download_video` (youtube_downloader.py:134-271):
the retry loop starts at attempt 1 with an initial backoff delay of 2 seconds
(the literal at line 180). -/
def download_video (d : YouTubeDownloader) (outcomes : Nat → AttemptOutcome)
    (fs : String → Option Nat) : DownloadResult × List DlEvent :=
  download_attempts outcomes fs d.per_video_timeout d.max_retries 1 2

/-- `pre` is a prefix of `s` (Python `s.startswith(pre)`), at character level. -/
def strStartsWith (pre s : String) : Bool := pre.data.isPrefixOf s.data

/-- Embeds `YouTubeDownloader.cleanup` (youtube_downloader.py:273-281):
`shutil.rmtree(self.download_dir)` removes every file under the configured
download directory, regardless of which task created it. -/
def cleanup (d : YouTubeDownloader) (files : List String) : List String :=
  files.filter (fun p => !(strStartsWith (d.download_dir ++ "/") p))

/-! ### The remote-source pipeline (`process_youtube_task`, app/main.py) -/

/-- The keyword parameters `YouTubeDownloader.__init__` accepts
(youtube_downloader.py:34-41). -/
def youtube_downloader_init_params : List String :=
  ["download_dir", "parallel", "audio_only", "max_retries", "rate_limit",
   "per_video_timeout", "max_resolution"]

/-- The keyword arguments `process_youtube_task` passes to the constructor
(main.py:471-478). -/
def process_youtube_task_init_kwargs : List String :=
  ["download_dir", "parallel_downloads", "audio_only", "max_resolution", "rate_limit",
   "max_retries"]

/-- The `str()` of the `TypeError` CPython raises for the call at main.py:471. -/
def unexpectedKwargMsg : String :=
  "YouTubeDownloader.__init__() got an unexpected keyword argument 'parallel_downloads'"

/-- The `str()` of the `TypeError` CPython raises when `os.path.exists`
receives a dict. -/
def statTypeErrorMsg : String :=
  "stat: path should be string, bytes, os.PathLike or integer, not dict"

/-- Embeds the constructor call
`YouTubeDownloader(download_dir=UPLOAD_DIR, parallel_downloads=parallel, ...)`
of main.py:471-478: CPython checks every keyword argument against the
signature before running the body, so the call raises a `TypeError`
(`parallel_downloads` is not a parameter) and the `.ok` branch — the object
the body would build, with defaults for the parameters not passed — is
unreachable. -/
def main_construct_downloader (parallel audio_only : Bool) (max_resolution : Nat) :
    Except String YouTubeDownloader :=
  if process_youtube_task_init_kwargs.all (youtube_downloader_init_params.contains ·) then
    .ok { download_dir := UPLOAD_DIR, parallel := parallel, audio_only := audio_only,
          max_retries := 3, rate_limit := .str "1M", per_video_timeout := 1800,
          max_resolution := max_resolution }
  else .error unexpectedKwargMsg

/-- The dict `download_video` returns, as the Python value
`process_youtube_task` binds to `video_path` (main.py:489). -/
def resultToPyDict (r : DownloadResult) : PyVal :=
  .dict [("success", .bool r.success),
         ("file_path", match r.file_path with | some p => .str p | Option.none => .none),
         ("title", match r.title with | some t => .str t | Option.none => .none),
         ("error", match r.error with | some e => .str e | Option.none => .none)]

/-- Filesystem events of the remote-source pipeline's `finally` step. -/
inductive FsEvent where
  | unlink (p : String)
  | rmtree (dir : String)
deriving DecidableEq

/-- Collaborator outcomes for one `process_youtube_task` run. -/
structure TaskEnv where
  proc : ProcEnv
  outcomes : Nat → AttemptOutcome
  fsSize : String → Option Nat
  fsExists : String → Bool
  now : ℚ

/-- The `finally` block of `process_youtube_task` (main.py:541-555): unlink
the downloaded file if `video_path` is truthy and exists (`os.path.exists` on
a non-string raises, which the inner `except` swallows, so no unlink happens
for a dict); then, when a downloader was constructed, run its `cleanup`, whose
own guard checks that the download directory exists, and which removes that
whole directory tree. -/
def youtubeFinallyEvents (env : TaskEnv) (video_path : PyVal)
    (downloader : Option YouTubeDownloader) : List FsEvent :=
  (match video_path with
   | .str p => if pyTruthy (.str p) ∧ env.fsExists p then [.unlink p] else []
   | _ => []) ++
  (match downloader with
   | some d => if env.fsExists d.download_dir then [.rmtree d.download_dir] else []
   | Option.none => [])

/-- Embeds `process_youtube_task` (main.py:444-555).  Returns the final
record, the list of `status` values the task body writes (in order), and the
filesystem events of the `finally` step.  The body: construct the downloader
(which raises, see `main_construct_downloader`); on the unreachable success
path, mark `downloading`, run `download_video`, bind its result dict to
`video_path`, and test `not video_path or not os.path.exists(video_path)` —
`os.path.exists` on the dict raises a `TypeError`, caught by the outer
`except`, so the task is marked `error`; the further source lines (the
`processing` update, subtitle generation, `completed`) are embedded for the
counterfactual in which `video_path` were a string path. -/
def process_youtube_task (env : TaskEnv) (rec : Assoc) (url : String)
    (parallel audio_only : Bool) (max_resolution : Nat) (embed_subtitles : Bool)
    (language : String) : Assoc × List String × List FsEvent :=
  match main_construct_downloader parallel audio_only max_resolution with
  | .error e =>
    (dictUpdate rec [("status", .str "error"), ("progress", .num 0),
       ("message", .str ("YouTube processing failed: " ++ e))],
     ["error"], youtubeFinallyEvents env .none Option.none)
  | .ok downloader =>
    let rec1 := dictUpdate rec [("status", .str "downloading"), ("progress", .num 10),
      ("message", .str "Downloading from YouTube...")]
    let dl := download_video downloader env.outcomes env.fsSize
    let video_path := resultToPyDict dl.1
    let fin := youtubeFinallyEvents env video_path (some downloader)
    if pyTruthy video_path = false then
      (dictUpdate rec1 [("status", .str "error"), ("progress", .num 0),
         ("message", .str "YouTube processing failed: Download failed - no video file created")],
       ["downloading", "error"], fin)
    else
      match video_path with
      | .str vps =>
        if env.fsExists vps = false then
          (dictUpdate rec1 [("status", .str "error"), ("progress", .num 0),
             ("message", .str "YouTube processing failed: Download failed - no video file created")],
           ["downloading", "error"], fin)
        else
          let rec2 := dictUpdate rec1 [("status", .str "processing"), ("progress", .num 50),
            ("message", .str "YouTube download complete. Generating subtitles..."),
            ("downloaded_file", .str (pathName vps))]
          match generate_subtitles_with_video env.proc vps OUTPUT_DIR embed_subtitles language with
          | .ok (srt_path, processed_video_path) =>
            let processing_time := env.now - getNum rec2 "start_time"
            let result_data : Assoc := [("status", .str "completed"), ("progress", .num 100),
              ("message", .str "YouTube video processed and subtitles generated successfully"),
              ("srt_path", .str srt_path), ("srt_filename", .str (pathName srt_path)),
              ("processing_time", .num processing_time),
              ("downloaded_file", .str (pathName vps))]
            let result_data :=
              match processed_video_path with
              | some vp => dictUpdate result_data [("video_path", .str vp),
                  ("video_filename", .str (pathName vp)),
                  ("message", .str "YouTube video processed - subtitles and video with embedded subtitles generated successfully")]
              | Option.none => result_data
            (dictUpdate rec2 result_data, ["downloading", "processing", "completed"], fin)
          | .error e =>
            (dictUpdate rec2 [("status", .str "error"), ("progress", .num 0),
               ("message", .str ("YouTube processing failed: " ++ e))],
             ["downloading", "processing", "error"], fin)
      | _ =>
        (dictUpdate rec1 [("status", .str "error"), ("progress", .num 0),
           ("message", .str ("YouTube processing failed: " ++ statTypeErrorMsg))],
         ["downloading", "error"], fin)

/-- The record created by the `youtube_download` endpoint (main.py:601-611)
before it dispatches `process_youtube_task`. -/
def initial_youtube_record (url : String) (start_time : ℚ) (embed_subtitles : Bool)
    (language : String) (audio_only : Bool) (max_resolution : Nat) : Assoc :=
  [("status", .str "downloading"), ("url", .str url), ("start_time", .num start_time),
   ("progress", .num 0), ("message", .str "Downloading video from YouTube..."),
   ("embed_subtitles", .bool embed_subtitles), ("language", .str language),
   ("audio_only", .bool audio_only), ("max_resolution", .num max_resolution)]

/-! ### Helper definitions for the statements and proofs -/

/-- The timing line of an SRT entry. -/
def tsLine (s : Segment) : String :=
  format_srt_timestamp s.start ++ " --> " ++ format_srt_timestamp s.stop

/-- Character data of the timing line. -/
def tsD (s : Segment) : List Char := (tsLine s).data

/-- Character data of the stripped text line of a segment. -/
def tD (s : Segment) : List Char := stripChars s.text.data

/-- A segment whose stripped text forms one well-formed SRT text line:
nonempty, not all digits, and free of embedded newlines. -/
def goodSeg (s : Segment) : Prop :=
  tD s ≠ [] ∧ (tD s).all Char.isDigit = false ∧ '\n' ∉ tD s

/-- All segments of a transcription are well formed. -/
def wellFormedSegs (segs : List Segment) : Prop := ∀ s ∈ segs, goodSeg s

/-- A translation backend in one of the failure modes of
`_translate_with_gpt`: missing credential (no key, empty key, or the
placeholder), or a chat request that raises / returns a malformed response
(`Except.error`). -/
def failingBackend (env : GptEnv) : Prop :=
  env.api_key = Option.none ∨ env.api_key = some "" ∨ env.api_key = some "your-api-key-here" ∨
    ∀ t l, ∃ e, env.respond t l = Except.error e

/-- Character data of the generated SRT content from index `k` on. -/
def entriesData : Nat → List Segment → List Char
  | _, [] => []
  | k, s :: rest =>
    natChars k ++ ('\n' :: (tsD s ++ ('\n' :: (tD s ++ ('\n' :: '\n' :: entriesData (k + 1) rest)))))

/-- The generated content with the final blank-line pair removed (what
`str.strip()` leaves). -/
def coreData : Nat → List Segment → List Char
  | _, [] => []
  | k, [s] => natChars k ++ ('\n' :: (tsD s ++ ('\n' :: tD s)))
  | k, s :: s2 :: rest =>
    natChars k ++
      ('\n' :: (tsD s ++ ('\n' :: (tD s ++ ('\n' :: '\n' :: coreData (k + 1) (s2 :: rest))))))

/-- The line list `content.strip().split('\n')` of the generated content. -/
def lineChars : Nat → List Segment → List (List Char)
  | _, [] => []
  | k, [s] => [natChars k, tsD s, tD s]
  | k, s :: s2 :: rest => natChars k :: tsD s :: tD s :: [] :: lineChars (k + 1) (s2 :: rest)

/-- The index/timing/text triples of the generated content. -/
def expectedTriples : Nat → List Segment → List (String × String × String)
  | _, [] => []
  | k, s :: rest => ((⟨natChars k⟩ : String), tsLine s, (⟨tD s⟩ : String)) :: expectedTriples (k + 1) rest

/-- The `translated_lines` list the scanner produces on the generated content. -/
def scanOut (tr : String → String) : Nat → List Segment → List String
  | _, [] => []
  | k, [s] => [(⟨natChars k⟩ : String), tsLine s, tr ⟨tD s⟩, ""]
  | k, s :: s2 :: rest =>
    (⟨natChars k⟩ : String) :: tsLine s :: tr ⟨tD s⟩ :: "" :: "" :: scanOut tr (k + 1) (s2 :: rest)

/-- The untranslated scanner output without its trailing empty line (what
`str.strip()` leaves of the reassembled translation). -/
def scanCore : Nat → List Segment → List String
  | _, [] => []
  | k, [s] => [(⟨natChars k⟩ : String), tsLine s, (⟨tD s⟩ : String)]
  | k, s :: s2 :: rest =>
    (⟨natChars k⟩ : String) :: tsLine s :: (⟨tD s⟩ : String) :: "" :: "" ::
      scanCore (k + 1) (s2 :: rest)

/-- The head character exists and is not whitespace. -/
def headNotWs (l : List Char) : Bool :=
  match l.head? with
  | some a => !a.isWhitespace
  | Option.none => false

/-- The last character exists and is not whitespace. -/
def lastNotWs (l : List Char) : Bool :=
  match l.getLast? with
  | some a => !a.isWhitespace
  | Option.none => false

/-- A field of a status response, `none` when the response is an error. -/
def statusField (r : Except HTTPError Assoc) (k : String) : Option PyVal :=
  match r with
  | .ok a => lookupKey k a
  | .error _ => Option.none

/-- The attempt numbers started in a retry-loop trace, in order. -/
def attemptNums (evs : List DlEvent) : List Nat :=
  evs.filterMap fun e =>
    match e with
    | .attemptStart n => some n
    | _ => Option.none

/-- The backoff sleeps of a retry-loop trace, in order. -/
def sleepDelays (evs : List DlEvent) : List Nat :=
  evs.filterMap fun e =>
    match e with
    | .slept s => some s
    | _ => Option.none

/-- How many times the retry loop terminated a hung worker. -/
def terminationCount (evs : List DlEvent) : Nat :=
  (evs.filterMap fun e =>
    match e with
    | .terminated => some ()
    | _ => Option.none).length

/-! ### Character and string lemmas -/

theorem ws_char_cases {c : Char} (h : c.isWhitespace = true) :
    c = ' ' ∨ c = '\t' ∨ c = '\r' ∨ c = '\n' := by
  simp only [Char.isWhitespace, Bool.or_eq_true, decide_eq_true_eq] at h
  tauto

theorem isDigit_not_ws {c : Char} (h : c.isDigit = true) : c.isWhitespace = false := by
  cases hw : c.isWhitespace
  · rfl
  · rcases ws_char_cases hw with rfl | rfl | rfl | rfl <;> exact absurd h (by decide)

theorem digitChar_isDigit {d : Nat} (h : d < 10) : (digitChar d).isDigit = true := by
  interval_cases d <;> decide

theorem natCharsAux_eq : ∀ n : Nat, ∀ {f1 f2 : Nat}, n < f1 → n < f2 →
    natCharsAux f1 n = natCharsAux f2 n := by
  intro n
  induction n using Nat.strong_induction_on with
  | _ n ih =>
    intro f1 f2 h1 h2
    match f1, f2 with
    | g1 + 1, g2 + 1 =>
      by_cases h10 : n < 10
      · simp [natCharsAux, h10]
      · have hd : n / 10 < n := Nat.div_lt_self (by omega) (by omega)
        simp only [natCharsAux, if_neg h10]
        have e1 : natCharsAux g1 (n / 10) = natCharsAux (n / 10 + 1) (n / 10) :=
          ih _ hd (by omega) (by omega)
        have e2 : natCharsAux g2 (n / 10) = natCharsAux (n / 10 + 1) (n / 10) :=
          ih _ hd (by omega) (by omega)
        rw [e1, e2]

theorem natChars_unfold (n : Nat) :
    natChars n = if n < 10 then [digitChar n] else natChars (n / 10) ++ [digitChar (n % 10)] := by
  by_cases h10 : n < 10
  · simp [natChars, natCharsAux, h10]
  · have hd : n / 10 < n := Nat.div_lt_self (by omega) (by omega)
    simp only [natChars, natCharsAux, if_neg h10]
    congr 1
    exact @natCharsAux_eq (n / 10) n (n / 10 + 1) (by omega) (by omega)

theorem natChars_all_digit : ∀ n : Nat, ∀ c ∈ natChars n, c.isDigit = true := by
  intro n
  induction n using Nat.strong_induction_on with
  | _ n ih =>
    intro c hc
    rw [natChars_unfold] at hc
    by_cases h10 : n < 10
    · rw [if_pos h10] at hc
      simp only [List.mem_singleton] at hc
      exact hc ▸ digitChar_isDigit h10
    · rw [if_neg h10] at hc
      rcases List.mem_append.mp hc with hm | hm
      · exact ih _ (Nat.div_lt_self (by omega) (by omega)) c hm
      · simp only [List.mem_singleton] at hm
        exact hm ▸ digitChar_isDigit (Nat.mod_lt _ (by omega))

theorem natChars_ne_nil (n : Nat) : natChars n ≠ [] := by
  rw [natChars_unfold]
  split <;> simp

theorem natChars_no_nl (n : Nat) : '\n' ∉ natChars n := by
  intro hm
  have := natChars_all_digit n _ hm
  exact absurd this (by decide)

theorem headNotWs_reverse (l : List Char) : headNotWs l.reverse = lastNotWs l := by
  simp only [headNotWs, lastNotWs, List.head?_reverse]

theorem lastNotWs_reverse (l : List Char) : lastNotWs l.reverse = headNotWs l := by
  simp only [headNotWs, lastNotWs, List.getLast?_reverse]

theorem dropWhile_of_headNotWs {l : List Char} (h : headNotWs l = true) :
    l.dropWhile Char.isWhitespace = l := by
  cases l with
  | nil => rfl
  | cons a t =>
    simp only [headNotWs, List.head?_cons, Bool.not_eq_true'] at h
    simp [List.dropWhile_cons, h]

theorem head_dropWhile {α : Type} (p : α → Bool) :
    ∀ l : List α, l.dropWhile p = [] ∨ ∃ a t, l.dropWhile p = a :: t ∧ p a = false := by
  intro l
  induction l with
  | nil => left; rfl
  | cons a t ih =>
    by_cases h : p a
    · simpa [List.dropWhile_cons, h] using ih
    · right
      exact ⟨a, t, by simp [List.dropWhile_cons, h], by simpa using h⟩

theorem getLast?_dropWhile {α : Type} (p : α → Bool) :
    ∀ l : List α, l.dropWhile p ≠ [] → (l.dropWhile p).getLast? = l.getLast? := by
  intro l
  induction l with
  | nil => simp
  | cons a t ih =>
    intro hne
    by_cases h : p a
    · rw [List.dropWhile_cons, if_pos h] at hne ⊢
      rw [ih hne]
      have ht : t ≠ [] := by
        intro e
        rw [e] at hne
        exact hne rfl
      cases t with
      | nil => cases ht rfl
      | cons b u => simp
    · rw [List.dropWhile_cons, if_neg h]

theorem strip_of_ok {l : List Char} (h1 : headNotWs l = true) (h2 : lastNotWs l = true) :
    stripChars l = l := by
  unfold stripChars
  rw [dropWhile_of_headNotWs h1]
  rw [dropWhile_of_headNotWs (by rw [headNotWs_reverse]; exact h2), List.reverse_reverse]

theorem stripChars_trailing {x suffix : List Char} (h1 : headNotWs x = true)
    (h2 : lastNotWs x = true) (hs : ∀ c ∈ suffix, c.isWhitespace = true) :
    stripChars (x ++ suffix) = x := by
  unfold stripChars
  have hx : headNotWs (x ++ suffix) = true := by
    cases x with
    | nil => simp [headNotWs] at h1
    | cons a t =>
      simp only [headNotWs, List.head?_cons, Bool.not_eq_true'] at h1
      simp [headNotWs, h1]
  rw [dropWhile_of_headNotWs hx, List.reverse_append]
  have hdrop : suffix.reverse.dropWhile Char.isWhitespace = [] := by
    rw [List.dropWhile_eq_nil_iff]
    intro c hc
    exact hs c (List.mem_reverse.mp hc)
  rw [List.dropWhile_append, hdrop]
  simp only [List.isEmpty_nil, if_true]
  rw [dropWhile_of_headNotWs (by rw [headNotWs_reverse]; exact h2), List.reverse_reverse]

theorem stripChars_ok {l : List Char} (h : stripChars l ≠ []) :
    headNotWs (stripChars l) = true ∧ lastNotWs (stripChars l) = true := by
  unfold stripChars at h ⊢
  set m := l.dropWhile Char.isWhitespace with hm
  set r := m.reverse.dropWhile Char.isWhitespace with hr
  have hrne : r ≠ [] := by
    intro e
    rw [e] at h
    exact h rfl
  constructor
  · rw [headNotWs_reverse]
    rcases head_dropWhile Char.isWhitespace l with he | ⟨a, t, heq, hpa⟩
    · have hmnil : m = [] := hm ▸ he
      rw [hmnil] at hr
      simp only [List.reverse_nil, List.dropWhile_nil] at hr
      exact absurd hr hrne
    · have hg : r.getLast? = some a := by
        rw [hr, getLast?_dropWhile _ _ (hr ▸ hrne), List.getLast?_reverse, hm, heq]
        rfl
      simp [lastNotWs, hg, hpa]
  · rw [lastNotWs_reverse]
    rcases head_dropWhile Char.isWhitespace m.reverse with he | ⟨a, t, heq, hpa⟩
    · exact absurd (hr ▸ he) hrne
    · have : r = a :: t := hr ▸ heq
      simp [headNotWs, this, hpa]

theorem splitNl_ne_nil : ∀ l : List Char, splitNl l ≠ [] := by
  intro l
  induction l with
  | nil => simp [splitNl]
  | cons c cs ih =>
    by_cases hc : c = '\n'
    · simp [splitNl, hc]
    · rcases h : splitNl cs with _ | ⟨l', ls⟩
      · exact absurd h ih
      · simp [splitNl, hc, h]

theorem splitNl_nlfree {l : List Char} (h : '\n' ∉ l) : splitNl l = [l] := by
  induction l with
  | nil => rfl
  | cons c cs ih =>
    have hc : ¬ c = '\n' := fun e => h (e ▸ List.mem_cons_self c cs)
    have ihh := ih fun hm => h (List.mem_cons_of_mem _ hm)
    simp [splitNl, hc, ihh]

theorem splitNl_append {a r : List Char} (h : '\n' ∉ a) :
    splitNl (a ++ '\n' :: r) = a :: splitNl r := by
  induction a with
  | nil => simp [splitNl]
  | cons c cs ih =>
    have hc : ¬ c = '\n' := fun e => h (e ▸ List.mem_cons_self c cs)
    have ihh := ih fun hm => h (List.mem_cons_of_mem _ hm)
    simp [splitNl, hc, ihh]

theorem joinNl_cons {l : List Char} {ls : List (List Char)} (h : ls ≠ []) :
    joinNlChars (l :: ls) = l ++ '\n' :: joinNlChars ls := by
  cases ls with
  | nil => cases h rfl
  | cons b bs => rfl

theorem splitNl_joinNl : ∀ ls : List (List Char), ls ≠ [] → (∀ l ∈ ls, '\n' ∉ l) →
    splitNl (joinNlChars ls) = ls := by
  intro ls
  induction ls with
  | nil => simp
  | cons l ls ih =>
    intro _ hnl
    cases ls with
    | nil => simpa [joinNlChars] using splitNl_nlfree (hnl l (List.mem_cons_self l []))
    | cons b bs =>
      rw [joinNl_cons (by simp), splitNl_append (hnl l (List.mem_cons_self l _)),
        ih (by simp) fun x hx => hnl x (List.mem_cons_of_mem _ hx)]

theorem joinNl_append_nil : ∀ ls : List (List Char), ls ≠ [] →
    joinNlChars (ls ++ [[]]) = joinNlChars ls ++ ['\n'] := by
  intro ls
  induction ls with
  | nil => simp
  | cons l ls ih =>
    intro _
    cases ls with
    | nil => rfl
    | cons b bs =>
      rw [List.cons_append, joinNl_cons (by simp), joinNl_cons (by simp), ih (by simp)]
      simp

theorem isPrefixOf_append_self : ∀ pat rest : List Char, pat.isPrefixOf (pat ++ rest) = true := by
  intro pat
  induction pat with
  | nil => intro rest; simp [List.isPrefixOf]
  | cons c cs ih => intro rest; simp [List.isPrefixOf, ih]

theorem containsSeq_middle : ∀ pre pat post : List Char, pat ≠ [] →
    containsSeq pat (pre ++ pat ++ post) = true := by
  intro pre
  induction pre with
  | nil =>
    intro pat post hne
    cases pat with
    | nil => cases hne rfl
    | cons p pt => simp [containsSeq, isPrefixOf_append_self]
  | cons c cs ih =>
    intro pat post hne
    simp only [List.cons_append, containsSeq, Bool.or_eq_true]
    right
    exact ih pat post hne

theorem notWs_ends_of_all_digit {l : List Char} (hne : l ≠ [])
    (hd : ∀ c ∈ l, c.isDigit = true) : headNotWs l = true ∧ lastNotWs l = true := by
  rcases h : l with _ | ⟨a, t⟩
  · cases hne h
  · subst h
    constructor
    · simp [headNotWs, isDigit_not_ws (hd a (List.mem_cons_self a t))]
    · have hlast : (a :: t).getLast? = some ((a :: t).getLast (by simp)) :=
        List.getLast?_eq_getLast _ (by simp)
      have hmem : (a :: t).getLast (by simp) ∈ a :: t := List.getLast_mem _
      simp [lastNotWs, hlast, isDigit_not_ws (hd _ hmem)]

theorem isdigitStr_natChars (n : Nat) : isdigitStr ⟨natChars n⟩ = true := by
  rcases h : natChars n with _ | ⟨a, t⟩
  · exact absurd h (natChars_ne_nil n)
  · have := natChars_all_digit n
    rw [h] at this
    simp only [isdigitStr, Bool.and_eq_true, Bool.not_eq_true', List.all_eq_true]
    exact ⟨rfl, this⟩

theorem isdigitStr_empty : isdigitStr "" = false := rfl

theorem pyStrip_of_ok {s : String} (hh : headNotWs s.data = true)
    (hl : lastNotWs s.data = true) : pyStrip s = s := by
  apply String.ext
  show stripChars s.data = s.data
  exact strip_of_ok hh hl

theorem pyStrip_mk_natChars (n : Nat) : pyStrip ⟨natChars n⟩ = (⟨natChars n⟩ : String) := by
  obtain ⟨hh, hl⟩ := notWs_ends_of_all_digit (natChars_ne_nil n) (natChars_all_digit n)
  exact pyStrip_of_ok hh hl

/-! ### Structure of the generated SRT content -/

theorem pyStrip_data (s : String) : (pyStrip s).data = stripChars s.data := rfl

theorem pyFormat0d_chars {w : Nat} {z : ℤ} : ∀ c ∈ pyFormat0d w z, c.isDigit = true ∨ c = '-' := by
  intro c hc
  unfold pyFormat0d at hc
  split at hc
  · rcases List.mem_append.mp hc with hm | hm
    · rcases List.mem_cons.mp hm with rfl | hm'
      · right; rfl
      · left
        have : c = '0' := List.eq_of_mem_replicate hm'
        subst this
        decide
    · exact Or.inl (natChars_all_digit _ c hm)
  · rcases List.mem_append.mp hc with hm | hm
    · left
      have : c = '0' := List.eq_of_mem_replicate hm
      subst this
      decide
    · exact Or.inl (natChars_all_digit _ c hm)

theorem not_nl_pyFormat0d (w : Nat) (z : ℤ) : '\n' ∉ pyFormat0d w z := by
  intro hmem
  rcases pyFormat0d_chars _ hmem with hdg | hdg
  · exact absurd hdg (by decide)
  · exact absurd hdg (by decide)

theorem data_mk (l : List Char) : (String.mk l).data = l := rfl

theorem format_srt_timestamp_no_nl (q : ℚ) : '\n' ∉ (format_srt_timestamp q).data := by
  have hiff : ∀ (w : Nat) (z : ℤ), ('\n' ∈ pyFormat0d w z) ↔ False :=
    fun w z => iff_false_intro (not_nl_pyFormat0d w z)
  simp [format_srt_timestamp, data_mk, List.mem_append, List.mem_cons, hiff]

theorem tsD_no_nl (s : Segment) : '\n' ∉ tsD s := by
  intro hm
  simp only [tsD, tsLine, String.data_append, List.mem_append, List.mem_cons] at hm
  rcases hm with (h | h) | h
  · exact format_srt_timestamp_no_nl s.start h
  · simp only [List.mem_cons, List.not_mem_nil, or_false] at h
    rcases h with h | h | h | h | h <;> exact absurd h (by decide)
  · exact format_srt_timestamp_no_nl s.stop h

theorem pyContains_tsLine (s : Segment) : pyContains (tsLine s) "-->" = true := by
  unfold pyContains tsLine
  have hpat : ("-->" : String).data = ['-', '-', '>'] := rfl
  rw [hpat]
  simp only [String.data_append]
  have heq : (format_srt_timestamp s.start).data ++ (" --> " : String).data ++
      (format_srt_timestamp s.stop).data =
      ((format_srt_timestamp s.start).data ++ [' ']) ++ ['-', '-', '>'] ++
        ([' '] ++ (format_srt_timestamp s.stop).data) := by
    have hmid : (" --> " : String).data = [' ', '-', '-', '>', ' '] := rfl
    rw [hmid]
    simp
  rw [heq]
  exact containsSeq_middle _ _ _ (by decide)

theorem srt_entry_data (i : Nat) (s : Segment) :
    (srt_entry i s).data = natChars i ++ '\n' :: (tsD s ++ '\n' :: (tD s ++ ['\n', '\n'])) := by
  simp only [srt_entry, String.data_append, tsD, tsLine, tD, pyStrip_data]
  simp [List.append_assoc]

theorem generate_data : ∀ (segs : List Segment) (k : Nat),
    (strConcat (srtEntries k segs)).data = entriesData k segs := by
  intro segs
  induction segs with
  | nil => intro k; rfl
  | cons s rest ih =>
    intro k
    simp only [srtEntries, strConcat, String.data_append, srt_entry_data, entriesData, ih]
    simp [List.append_assoc]

theorem tsD_ne_nil (s : Segment) : tsD s ≠ [] := by
  simp only [tsD, tsLine, String.data_append]
  intro h
  rcases List.append_eq_nil.mp h with ⟨h1, _⟩
  rcases List.append_eq_nil.mp h1 with ⟨_, h2⟩
  exact absurd h2 (by decide)

theorem lastNotWs_append {x y : List Char} (hy : lastNotWs y = true) :
    lastNotWs (x ++ y) = true := by
  cases hg : y.getLast? with
  | none => simp [lastNotWs, hg] at hy
  | some a =>
    simp only [lastNotWs, hg] at hy
    simp [lastNotWs, List.getLast?_append, hg, hy]

theorem lastNotWs_cons {c : Char} {y : List Char} (hy : y ≠ []) :
    lastNotWs (c :: y) = lastNotWs y := by
  cases y with
  | nil => cases hy rfl
  | cons b u => simp [lastNotWs]

theorem headNotWs_of_head? {l : List Char} {a : Char} (h : l.head? = some a)
    (hws : a.isWhitespace = false) : headNotWs l = true := by
  simp [headNotWs, h, hws]

theorem headNotWs_natChars_append (k : Nat) (r : List Char) :
    headNotWs (natChars k ++ r) = true := by
  obtain ⟨a, t, h⟩ := List.exists_cons_of_ne_nil (natChars_ne_nil k)
  have ha : a.isWhitespace = false :=
    isDigit_not_ws (natChars_all_digit k a (h ▸ List.mem_cons_self a t))
  apply headNotWs_of_head? _ ha
  simp [h]

theorem goodSeg_strip_ok {s : Segment} (h : goodSeg s) :
    headNotWs (tD s) = true ∧ lastNotWs (tD s) = true :=
  stripChars_ok h.1

theorem headNotWs_coreData (k : Nat) (s : Segment) (rest : List Segment) :
    headNotWs (coreData k (s :: rest)) = true := by
  cases rest with
  | nil => exact headNotWs_natChars_append k _
  | cons s2 r2 => exact headNotWs_natChars_append k _

theorem lastNotWs_coreData : ∀ (segs : List Segment) (k : Nat), segs ≠ [] →
    wellFormedSegs segs → lastNotWs (coreData k segs) = true := by
  intro segs
  induction segs with
  | nil => intro k h; cases h rfl
  | cons s rest ih =>
    intro k _ hwf
    have hs : goodSeg s := hwf s (List.mem_cons_self s rest)
    cases rest with
    | nil =>
      show lastNotWs (natChars k ++ ('\n' :: (tsD s ++ ('\n' :: tD s)))) = true
      apply lastNotWs_append
      rw [lastNotWs_cons (by simp)]
      apply lastNotWs_append
      rw [lastNotWs_cons hs.1]
      exact (goodSeg_strip_ok hs).2
    | cons s2 r2 =>
      show lastNotWs (natChars k ++
        ('\n' :: (tsD s ++ ('\n' :: (tD s ++ ('\n' :: '\n' :: coreData (k + 1) (s2 :: r2))))))) = true
      have hrec : lastNotWs (coreData (k + 1) (s2 :: r2)) = true :=
        ih (k + 1) (by simp) fun x hx => hwf x (List.mem_cons_of_mem _ hx)
      apply lastNotWs_append
      rw [lastNotWs_cons (by simp)]
      apply lastNotWs_append
      rw [lastNotWs_cons (by simp)]
      apply lastNotWs_append
      have hcne : coreData (k + 1) (s2 :: r2) ≠ [] := by
        intro e
        rw [e] at hrec
        simp [lastNotWs] at hrec
      rw [lastNotWs_cons (by simp [hcne]), lastNotWs_cons hcne]
      exact hrec

theorem entriesData_eq_core : ∀ (segs : List Segment) (k : Nat), segs ≠ [] →
    entriesData k segs = coreData k segs ++ ['\n', '\n'] := by
  intro segs
  induction segs with
  | nil => intro k h; cases h rfl
  | cons s rest ih =>
    intro k _
    cases rest with
    | nil => simp [entriesData, coreData]
    | cons s2 r2 =>
      have hih := ih (k + 1) (by simp)
      show natChars k ++
          ('\n' :: (tsD s ++ ('\n' :: (tD s ++ ('\n' :: '\n' :: entriesData (k + 1) (s2 :: r2)))))) = _
      rw [hih]
      show _ = natChars k ++
          ('\n' :: (tsD s ++ ('\n' :: (tD s ++ ('\n' :: '\n' :: coreData (k + 1) (s2 :: r2)))))) ++
          ['\n', '\n']
      simp [List.append_assoc]

theorem strip_generate : ∀ (segs : List Segment) (k : Nat), segs ≠ [] →
    wellFormedSegs segs →
    stripChars (entriesData k segs) = coreData k segs := by
  intro segs k hne hwf
  rw [entriesData_eq_core segs k hne]
  rcases segs with _ | ⟨s, rest⟩
  · cases hne rfl
  · exact stripChars_trailing (headNotWs_coreData k s rest)
      (lastNotWs_coreData _ k hne hwf) (by intro c hc; simp at hc; rcases hc with rfl | rfl <;> decide)

theorem splitNl_coreData : ∀ (segs : List Segment) (k : Nat), segs ≠ [] →
    wellFormedSegs segs → splitNl (coreData k segs) = lineChars k segs := by
  intro segs
  induction segs with
  | nil => intro k h; cases h rfl
  | cons s rest ih =>
    intro k _ hwf
    have hs : goodSeg s := hwf s (List.mem_cons_self s rest)
    have hnk : '\n' ∉ natChars k := natChars_no_nl k
    have hts : '\n' ∉ tsD s := tsD_no_nl s
    have htd : '\n' ∉ tD s := hs.2.2
    cases rest with
    | nil =>
      show splitNl (natChars k ++ ('\n' :: (tsD s ++ ('\n' :: tD s)))) = _
      rw [splitNl_append hnk, splitNl_append hts, splitNl_nlfree htd]
      rfl
    | cons s2 r2 =>
      show splitNl (natChars k ++
        ('\n' :: (tsD s ++ ('\n' :: (tD s ++ ('\n' :: '\n' :: coreData (k + 1) (s2 :: r2))))))) = _
      rw [splitNl_append hnk, splitNl_append hts, splitNl_append htd]
      have : splitNl ('\n' :: coreData (k + 1) (s2 :: r2)) =
          [] :: splitNl (coreData (k + 1) (s2 :: r2)) := by
        simp [splitNl]
      rw [this, ih (k + 1) (by simp) fun x hx => hwf x (List.mem_cons_of_mem _ hx)]
      rfl

/-- The line list of the generated content, as strings. -/
theorem pySplitNl_generate (segs : List Segment) (hne : segs ≠ [])
    (hwf : wellFormedSegs segs) :
    pySplitNl (pyStrip (generate_srt_content segs)) = (lineChars 1 segs).map (⟨·⟩) := by
  unfold pySplitNl
  have hdata : (pyStrip (generate_srt_content segs)).data = coreData 1 segs := by
    rw [pyStrip_data]
    unfold generate_srt_content
    rw [generate_data segs 1]
    exact strip_generate segs 1 hne hwf
  rw [hdata, splitNl_coreData segs 1 hne hwf]

theorem empty_string_mk : ("" : String) = (⟨[]⟩ : String) := rfl

theorem mk_tD_props {s : Segment} (h : goodSeg s) :
    pyStrip (⟨tD s⟩ : String) = (⟨tD s⟩ : String) ∧ (⟨tD s⟩ : String) ≠ "" ∧
      isdigitStr ⟨tD s⟩ = false := by
  refine ⟨?_, ?_, ?_⟩
  · obtain ⟨hh, hl⟩ := stripChars_ok h.1
    exact pyStrip_of_ok hh hl
  · intro e
    exact h.1 (by simpa [String.ext_iff] using e)
  · simp [isdigitStr, h.2.1]

theorem collectText_empty_stop (rest : List String) :
    collectText ("" :: rest) = ([], "" :: rest) := by
  simp only [collectText]
  rw [if_neg]
  intro hcon
  exact hcon.1 rfl

theorem collectText_tD_stop {s : Segment} (h : goodSeg s) (rest : List String) :
    collectText ((⟨tD s⟩ : String) :: "" :: rest) = ([⟨tD s⟩], "" :: rest) := by
  obtain ⟨h1, h2, h3⟩ := mk_tD_props h
  simp only [collectText]
  rw [if_pos ⟨by rw [h1]; exact h2, by rw [h1]; exact h3⟩,
    if_neg (fun hcon => hcon.1 rfl), h1]

theorem collectText_tD_last {s : Segment} (h : goodSeg s) :
    collectText [(⟨tD s⟩ : String)] = ([⟨tD s⟩], []) := by
  obtain ⟨h1, h2, h3⟩ := mk_tD_props h
  simp only [collectText]
  rw [if_pos ⟨by rw [h1]; exact h2, by rw [h1]; exact h3⟩, h1]

theorem pyContains_mk_tsD (s : Segment) : pyContains ⟨tsD s⟩ "-->" = true := by
  have : (⟨tsD s⟩ : String) = tsLine s := rfl
  rw [this]
  exact pyContains_tsLine s

theorem parse_lineChars : ∀ (segs : List Segment) (k : Nat), wellFormedSegs segs →
    parseBlocksAux ((lineChars k segs).map (⟨·⟩)) = expectedTriples k segs := by
  intro segs
  induction segs with
  | nil => intro k _; simp [lineChars, parseBlocksAux, expectedTriples]
  | cons s rest ih =>
    intro k hwf
    have hs : goodSeg s := hwf s (List.mem_cons_self s rest)
    have hnum : pyStrip (⟨natChars k⟩ : String) = ⟨natChars k⟩ := pyStrip_mk_natChars k
    have hdig : isdigitStr (⟨natChars k⟩ : String) = true := isdigitStr_natChars k
    cases rest with
    | nil =>
      show parseBlocksAux [⟨natChars k⟩, ⟨tsD s⟩, ⟨tD s⟩] = _
      rw [parseBlocksAux.eq_def]
      simp only [hnum, hdig, if_true, pyContains_mk_tsD s, collectText_tD_last hs,
        List.isEmpty_cons, List.isEmpty_nil]
      rw [parseBlocksAux.eq_def]
      simp [expectedTriples, lineChars, parseBlocksAux]
      exact ⟨rfl, rfl⟩
    | cons s2 r2 =>
      have hih := ih (k + 1) fun x hx => hwf x (List.mem_cons_of_mem _ hx)
      show parseBlocksAux ((⟨natChars k⟩ : String) :: (⟨tsD s⟩ : String) :: (⟨tD s⟩ : String) ::
        "" :: (lineChars (k + 1) (s2 :: r2)).map (⟨·⟩)) = _
      rw [parseBlocksAux.eq_def]
      simp only [hnum, hdig, if_true, pyContains_mk_tsD s, collectText_tD_stop hs,
        List.isEmpty_cons]
      rw [parseBlocksAux.eq_def]
      simp only [show pyStrip "" = "" from rfl, isdigitStr_empty, Bool.false_eq_true, if_false,
        hih]
      simp [expectedTriples]
      exact ⟨rfl, rfl⟩

theorem serialize_expected : ∀ (segs : List Segment) (k : Nat),
    serialize_blocks (expectedTriples k segs) = strConcat (srtEntries k segs) := by
  intro segs
  induction segs with
  | nil => intro k; rfl
  | cons s rest ih =>
    intro k
    simp only [expectedTriples, serialize_blocks, List.map_cons, strConcat, srtEntries]
    have hblock : serialize_block ((⟨natChars k⟩ : String), tsLine s, (⟨tD s⟩ : String)) =
        srt_entry k s := by
      apply String.ext
      simp only [serialize_block, srt_entry, String.data_append, pyStrip_data, tsD, tsLine, tD]
      simp [List.append_assoc]
    show serialize_block _ ++ serialize_blocks (expectedTriples (k + 1) rest) = _
    rw [hblock, ih]

theorem parseBlocks_generate (segs : List Segment) (hwf : wellFormedSegs segs) :
    parseBlocks (generate_srt_content segs) = expectedTriples 1 segs := by
  cases segs with
  | nil =>
    simp [parseBlocks, generate_srt_content, srtEntries, strConcat, pySplitNl, pyStrip,
      stripChars, splitNl, parseBlocksAux, expectedTriples]
  | cons s rest =>
    unfold parseBlocks
    rw [pySplitNl_generate _ (by simp) hwf, parse_lineChars _ 1 hwf]

theorem translate_with_gpt_failing {env : GptEnv} (h : failingBackend env) :
    ∀ t l, translate_with_gpt env t l = t := by
  intro t l
  unfold translate_with_gpt
  rcases h with hk | hk | hk | hr
  · rw [hk]
  · rw [hk]
    simp
  · rw [hk]
    simp
  · cases hk : env.api_key with
    | none => rfl
    | some k =>
      by_cases hkk : k = "" ∨ k = "your-api-key-here"
      · simp [hkk]
      · obtain ⟨e, he⟩ := hr t l
        simp [hkk, he]

theorem scan_lineChars : ∀ (segs : List Segment) (k : Nat) (tr : String → String),
    wellFormedSegs segs →
    scanLines tr ((lineChars k segs).map (⟨·⟩)) = scanOut tr k segs := by
  intro segs
  induction segs with
  | nil => intro k tr _; simp [lineChars, scanLines, scanOut]
  | cons s rest ih =>
    intro k tr hwf
    have hs : goodSeg s := hwf s (List.mem_cons_self s rest)
    have hnum : pyStrip (⟨natChars k⟩ : String) = ⟨natChars k⟩ := pyStrip_mk_natChars k
    have hdig : isdigitStr (⟨natChars k⟩ : String) = true := isdigitStr_natChars k
    cases rest with
    | nil =>
      show scanLines tr [⟨natChars k⟩, ⟨tsD s⟩, ⟨tD s⟩] = _
      rw [scanLines.eq_def]
      simp only [hnum, hdig, if_true, pyContains_mk_tsD s, collectText_tD_last hs,
        List.isEmpty_cons, List.isEmpty_nil]
      rw [scanLines.eq_def]
      simp [scanOut]
      exact ⟨rfl, rfl⟩
    | cons s2 r2 =>
      have hih := ih (k + 1) tr fun x hx => hwf x (List.mem_cons_of_mem _ hx)
      show scanLines tr ((⟨natChars k⟩ : String) :: (⟨tsD s⟩ : String) :: (⟨tD s⟩ : String) ::
        "" :: (lineChars (k + 1) (s2 :: r2)).map (⟨·⟩)) = _
      rw [scanLines.eq_def]
      simp only [hnum, hdig, if_true, pyContains_mk_tsD s, collectText_tD_stop hs,
        List.isEmpty_cons]
      rw [scanLines.eq_def]
      simp only [show pyStrip "" = "" from rfl, isdigitStr_empty, Bool.false_eq_true, if_false,
        if_true, hih]
      simp [scanOut]
      exact ⟨rfl, rfl⟩

theorem scanOut_id : ∀ (segs : List Segment) (k : Nat) (tr : String → String),
    (∀ t, tr t = t) → segs ≠ [] → scanOut tr k segs = scanCore k segs ++ [""] := by
  intro segs
  induction segs with
  | nil => intro k tr _ h; cases h rfl
  | cons s rest ih =>
    intro k tr htr _
    cases rest with
    | nil => simp [scanOut, scanCore, htr]
    | cons s2 r2 =>
      simp only [scanOut, scanCore, htr, ih (k + 1) tr htr (by simp)]
      rfl

theorem headNotWs_natChars (k : Nat) : headNotWs (natChars k) = true :=
  (notWs_ends_of_all_digit (natChars_ne_nil k) (natChars_all_digit k)).1

theorem scanCore_nl_free : ∀ (segs : List Segment) (k : Nat), wellFormedSegs segs →
    ∀ l ∈ (scanCore k segs).map String.data, '\n' ∉ l := by
  intro segs
  induction segs with
  | nil => intro k _ l hl; simp [scanCore] at hl
  | cons s rest ih =>
    intro k hwf l hl
    have hs : goodSeg s := hwf s (List.mem_cons_self s rest)
    cases rest with
    | nil =>
      simp only [scanCore, List.map_cons, List.map_nil, List.mem_cons, List.not_mem_nil,
        or_false] at hl
      rcases hl with rfl | rfl | rfl
      · exact natChars_no_nl k
      · exact tsD_no_nl s
      · exact hs.2.2
    | cons s2 r2 =>
      simp only [scanCore, List.map_cons, List.mem_cons] at hl
      rcases hl with rfl | rfl | rfl | rfl | rfl | hl
      · exact natChars_no_nl k
      · exact tsD_no_nl s
      · exact hs.2.2
      · simp
      · simp
      · exact ih (k + 1) (fun x hx => hwf x (List.mem_cons_of_mem _ hx)) l
          (by simpa using hl)

theorem joinNl_append_last : ∀ (ls : List (List Char)) (x : List Char), ls ≠ [] →
    joinNlChars (ls ++ [x]) = joinNlChars ls ++ '\n' :: x := by
  intro ls
  induction ls with
  | nil => intro x h; cases h rfl
  | cons l ls ih =>
    intro x _
    cases ls with
    | nil => rfl
    | cons b bs =>
      rw [List.cons_append, joinNl_cons (by simp), joinNl_cons (by simp), ih x (by simp)]
      simp

theorem scanCore_decomp : ∀ (segs : List Segment) (k : Nat), segs ≠ [] →
    ∃ (pre : List String) (s' : Segment), s' ∈ segs ∧
      scanCore k segs = pre ++ [(⟨tD s'⟩ : String)] := by
  intro segs
  induction segs with
  | nil => intro k h; cases h rfl
  | cons s rest ih =>
    intro k _
    cases rest with
    | nil => exact ⟨[⟨natChars k⟩, tsLine s], s, List.mem_cons_self s [], rfl⟩
    | cons s2 r2 =>
      obtain ⟨pre, s', hmem, heq⟩ := ih (k + 1) (by simp)
      refine ⟨(⟨natChars k⟩ : String) :: tsLine s :: (⟨tD s⟩ : String) :: "" :: "" :: pre, s',
        List.mem_cons_of_mem _ hmem, ?_⟩
      show (⟨natChars k⟩ : String) :: tsLine s :: (⟨tD s⟩ : String) :: "" :: "" ::
        scanCore (k + 1) (s2 :: r2) = _
      rw [heq]
      simp

theorem parse_scanCore : ∀ (segs : List Segment) (k : Nat), wellFormedSegs segs →
    parseBlocksAux (scanCore k segs) = expectedTriples k segs := by
  intro segs
  induction segs with
  | nil => intro k _; simp [scanCore, parseBlocksAux, expectedTriples]
  | cons s rest ih =>
    intro k hwf
    have hs : goodSeg s := hwf s (List.mem_cons_self s rest)
    have hnum : pyStrip (⟨natChars k⟩ : String) = ⟨natChars k⟩ := pyStrip_mk_natChars k
    have hdig : isdigitStr (⟨natChars k⟩ : String) = true := isdigitStr_natChars k
    have harr : pyContains (tsLine s) "-->" = true := pyContains_tsLine s
    cases rest with
    | nil =>
      show parseBlocksAux [⟨natChars k⟩, tsLine s, ⟨tD s⟩] = _
      rw [parseBlocksAux.eq_def]
      simp only [hnum, hdig, if_true, harr, collectText_tD_last hs, List.isEmpty_cons,
        List.isEmpty_nil]
      rw [parseBlocksAux.eq_def]
      simp [expectedTriples, parseBlocksAux]
      exact rfl
    | cons s2 r2 =>
      have hih := ih (k + 1) fun x hx => hwf x (List.mem_cons_of_mem _ hx)
      show parseBlocksAux ((⟨natChars k⟩ : String) :: tsLine s :: (⟨tD s⟩ : String) ::
        "" :: "" :: scanCore (k + 1) (s2 :: r2)) = _
      rw [parseBlocksAux.eq_def]
      simp only [hnum, hdig, if_true, harr, collectText_tD_stop hs, List.isEmpty_cons]
      rw [parseBlocksAux.eq_def]
      simp only [show pyStrip "" = "" from rfl, isdigitStr_empty, Bool.false_eq_true, if_false]
      rw [parseBlocksAux.eq_def]
      simp only [show pyStrip "" = "" from rfl, isdigitStr_empty, Bool.false_eq_true, if_false,
        hih]
      simp [expectedTriples]
      exact rfl

theorem headNotWs_joinNl_scanCore (s : Segment) (rest : List Segment) (k : Nat) :
    headNotWs (joinNlChars ((scanCore k (s :: rest)).map String.data)) = true := by
  cases rest with
  | nil =>
    show headNotWs (joinNlChars [natChars k, tsD s, tD s]) = true
    rw [joinNl_cons (by simp)]
    exact headNotWs_natChars_append k _
  | cons s2 r2 =>
    show headNotWs (joinNlChars (natChars k :: tsD s :: tD s :: [] :: [] ::
      (scanCore (k + 1) (s2 :: r2)).map String.data)) = true
    rw [joinNl_cons (by simp)]
    exact headNotWs_natChars_append k _

theorem lastNotWs_joinNl_scanCore (segs : List Segment) (k : Nat) (hne : segs ≠ [])
    (hwf : wellFormedSegs segs) :
    lastNotWs (joinNlChars ((scanCore k segs).map String.data)) = true := by
  obtain ⟨pre, s', hmem, heq⟩ := scanCore_decomp segs k hne
  have hs' : goodSeg s' := hwf s' hmem
  have htd : lastNotWs (tD s') = true := (stripChars_ok hs'.1).2
  rw [heq, List.map_append]
  simp only [List.map_cons, List.map_nil, data_mk]
  cases hpre : pre.map String.data with
  | nil =>
    simpa [joinNlChars] using htd
  | cons p ps =>
    rw [joinNl_append_last _ _ (by simp [hpre])]
    apply lastNotWs_append
    rw [lastNotWs_cons hs'.1]
    exact htd

theorem map_mk_data (ls : List String) :
    ((ls.map String.data).map fun l => (⟨l⟩ : String)) = ls := by
  rw [List.map_map]
  have : ((fun l => (⟨l⟩ : String)) ∘ String.data) = fun x => x := rfl
  rw [this, List.map_id']

theorem parseBlocks_joinNl_scanCore (segs : List Segment) (k : Nat) (hne : segs ≠ [])
    (hwf : wellFormedSegs segs) :
    parseBlocks (pyJoinNl (scanCore k segs ++ [""])) = expectedTriples k segs := by
  have hmapne : (scanCore k segs).map String.data ≠ [] := by
    rcases segs with _ | ⟨s, rest⟩
    · cases hne rfl
    · cases rest <;> simp [scanCore]
  have hdata : (pyStrip (pyJoinNl (scanCore k segs ++ [""]))).data =
      joinNlChars ((scanCore k segs).map String.data) := by
    rw [pyStrip_data]
    have h1 : (pyJoinNl (scanCore k segs ++ [""])).data =
        joinNlChars ((scanCore k segs).map String.data ++ [[]]) := by
      show joinNlChars (((scanCore k segs) ++ [""]).map String.data) = _
      rw [List.map_append]
      rfl
    rw [h1, joinNl_append_nil _ hmapne]
    rcases segs with _ | ⟨s, rest⟩
    · cases hne rfl
    · exact stripChars_trailing (headNotWs_joinNl_scanCore s rest k)
        (lastNotWs_joinNl_scanCore _ k hne hwf)
        (by intro c hc; simp at hc; subst hc; decide)
  unfold parseBlocks pySplitNl
  rw [hdata, splitNl_joinNl _ hmapne (fun l hl => scanCore_nl_free segs k hwf l hl),
    map_mk_data]
  exact parse_scanCore segs k hwf

/-- Core content lemma for the translation stage: under a failing backend the
scan rebuilds every block with its original text, so parsing the stage's
output yields exactly the original triples. -/
theorem parse_translate_failing (env : GptEnv) (hf : failingBackend env)
    (segs : List Segment) (hwf : wellFormedSegs segs) (lang : String) :
    parseBlocks (translate_srt_content env (generate_srt_content segs) lang) =
      parseBlocks (generate_srt_content segs) := by
  by_cases hl : lang = "en"
  · rw [hl]
    unfold translate_srt_content
    simp
  · unfold translate_srt_content
    rw [if_neg hl]
    rcases hsegs : segs with _ | ⟨s, rest⟩
    · show parseBlocks (pyJoinNl (scanLines _ (pySplitNl (pyStrip (generate_srt_content []))))) = _
      show parseBlocks (pyJoinNl (scanLines _ (pySplitNl ""))) = _
      have h1 : pySplitNl "" = [""] := rfl
      rw [h1]
      have h2 : ∀ tr, scanLines tr [""] = [""] := by
        intro tr
        rw [scanLines.eq_def]
        simp [show pyStrip "" = "" from rfl, isdigitStr_empty, scanLines]
      rw [h2]
      rfl
    · subst hsegs
      rw [pySplitNl_generate _ (by simp) hwf,
        scan_lineChars _ 1 _ hwf,
        scanOut_id _ 1 _ (fun t => translate_with_gpt_failing hf t _) (by simp),
        parseBlocks_joinNl_scanCore _ 1 (by simp) hwf,
        parseBlocks_generate _ hwf]

/-! ### Timestamp arithmetic -/

theorem floor_div_natCast (q : ℚ) (n : ℕ) (hn : 0 < n) : ⌊q / (n : ℚ)⌋ = ⌊q⌋ / (n : ℤ) := by
  have hn' : (0 : ℚ) < (n : ℚ) := by exact_mod_cast hn
  have hnz : (n : ℤ) ≠ 0 := by exact_mod_cast hn.ne'
  rw [Int.floor_eq_iff]
  constructor
  · rw [le_div_iff hn']
    have h1 : (⌊q⌋ / (n : ℤ)) * (n : ℤ) ≤ ⌊q⌋ := Int.ediv_mul_le ⌊q⌋ hnz
    calc ((⌊q⌋ / (n : ℤ) : ℤ) : ℚ) * (n : ℚ) = (((⌊q⌋ / (n : ℤ)) * (n : ℤ) : ℤ) : ℚ) := by
          push_cast
          ring
    _ ≤ ((⌊q⌋ : ℤ) : ℚ) := by exact_mod_cast h1
    _ ≤ q := Int.floor_le q
  · rw [div_lt_iff hn']
    have h2 : ⌊q⌋ < (⌊q⌋ / (n : ℤ) + 1) * (n : ℤ) :=
      Int.lt_ediv_add_one_mul_self ⌊q⌋ (by exact_mod_cast hn)
    have h2' : ⌊q⌋ + 1 ≤ (⌊q⌋ / (n : ℤ) + 1) * (n : ℤ) := h2
    calc q < ((⌊q⌋ : ℤ) : ℚ) + 1 := Int.lt_floor_add_one q
    _ ≤ ((((⌊q⌋ / (n : ℤ) + 1) * (n : ℤ)) : ℤ) : ℚ) := by exact_mod_cast h2'
    _ = (((⌊q⌋ / (n : ℤ) : ℤ) : ℚ) + 1) * (n : ℚ) := by
          push_cast
          ring

theorem format_srt_timestamp_spec_form (q : ℚ) :
    format_srt_timestamp q =
      ⟨pyFormat0d 2 (⌊q⌋ / 3600) ++ ':' :: (pyFormat0d 2 (⌊q⌋ / 60 % 60) ++ ':' ::
        (pyFormat0d 2 (⌊q⌋ % 60) ++ ',' :: pyFormat0d 3 ⌊Int.fract q * 1000⌋))⟩ := by
  have h3600 : ⌊q / (3600 : ℚ)⌋ = ⌊q⌋ / 3600 := by
    have h := floor_div_natCast q 3600 (by norm_num)
    norm_num at h
    exact h
  have h60 : ⌊q / (60 : ℚ)⌋ = ⌊q⌋ / 60 := by
    have h := floor_div_natCast q 60 (by norm_num)
    norm_num at h
    exact h
  have hmin : ⌊qmod q 3600 / 60⌋ = ⌊q⌋ / 60 % 60 := by
    unfold qmod
    have hdiv : (q - 3600 * (⌊q / (3600 : ℚ)⌋ : ℚ)) / 60 =
        q / 60 - ((60 * (⌊q⌋ / 3600) : ℤ) : ℚ) := by
      rw [h3600]
      push_cast
      ring
    rw [hdiv, Int.floor_sub_int, h60]
    omega
  have hsec : ⌊qmod q 60⌋ = ⌊q⌋ % 60 := by
    unfold qmod
    have heq : q - 60 * (⌊q / (60 : ℚ)⌋ : ℚ) = q - ((60 * (⌊q⌋ / 60) : ℤ) : ℚ) := by
      rw [h60]
      push_cast
      ring
    rw [heq, Int.floor_sub_int]
    omega
  have hms : ⌊qmod q 1 * 1000⌋ = ⌊Int.fract q * 1000⌋ := by
    unfold qmod
    rw [div_one, one_mul, Int.self_sub_floor]
  simp only [format_srt_timestamp]
  rw [h3600, hmin, hsec, hms]
  exact congrArg String.mk (by simp [List.append_assoc])

/-! ### Task-record lemmas -/

theorem lookupKey_dictSet_self : ∀ (d : Assoc) (k : String) (v : PyVal),
    lookupKey k (dictSet d k v) = some v := by
  intro d k v
  induction d with
  | nil => simp [dictSet, lookupKey]
  | cons kv rest ih =>
    by_cases h : kv.1 = k
    · simp [dictSet, h, lookupKey]
    · simp [dictSet, h, lookupKey, ih]

theorem lookupKey_dictSet_other : ∀ (d : Assoc) (k k' : String) (v : PyVal), k' ≠ k →
    lookupKey k (dictSet d k' v) = lookupKey k d := by
  intro d k k' v hne
  induction d with
  | nil => simp [dictSet, lookupKey, hne]
  | cons kv rest ih =>
    by_cases h : kv.1 = k'
    · simp [dictSet, h, lookupKey, hne]
    · simp [dictSet, h, lookupKey, ih]

/-- `generate_subtitles_with_video` written out without `do` notation. -/
theorem generate_subtitles_with_video_eq (env : ProcEnv) (fp outdir : String)
    (embed : Bool) (lang : String) :
    generate_subtitles_with_video env fp outdir embed lang =
      match env.extract with
      | .error e => .error e
      | .ok _ =>
        match env.transcribe with
        | .error e => .error e
        | .ok _ =>
          .ok (pyOsJoin outdir (pathStem fp ++ "_" ++ env.uuidHex ++ ".srt"),
            if embed then
              match embed_soft_subtitles env fp
                  (pyOsJoin outdir (pathStem fp ++ "_" ++ env.uuidHex ++ ".srt")) outdir lang with
              | .ok p => some p
              | .error _ => Option.none
            else Option.none) := by
  unfold generate_subtitles_with_video
  cases env.extract with
  | error e => rfl
  | ok pr =>
    cases env.transcribe with
    | error e => rfl
    | ok segs => rfl

/-! ### Retry-controller lemmas -/

/-- The terminal timeout failure dict. -/
def timeoutResult (t : Nat) : DownloadResult :=
  {success := false, file_path := Option.none, title := Option.none,
   error := some ("Download timeout after " ++ (⟨natChars t⟩ : String) ++ "s")}

theorem download_attempts_hang_last {outcomes : Nat → AttemptOutcome} {fs : String → Option Nat}
    {t att δ : Nat} (houtk : outcomes att = .hang) :
    download_attempts outcomes fs t 1 att δ =
      (timeoutResult t, [.attemptStart att, .terminated]) := by
  conv_lhs => rw [download_attempts]
  rw [houtk]
  simp [timeoutResult]

theorem download_attempts_hang_step {outcomes : Nat → AttemptOutcome} {fs : String → Option Nat}
    {t att δ rem : Nat} (houtk : outcomes att = .hang) (hrem : rem ≠ 0) :
    download_attempts outcomes fs t (rem + 1) att δ =
      ((download_attempts outcomes fs t rem (att + 1) (δ * 2)).1,
        .attemptStart att :: .terminated :: .slept δ ::
          (download_attempts outcomes fs t rem (att + 1) (δ * 2)).2) := by
  conv_lhs => rw [download_attempts]
  rw [houtk]
  simp [hrem]

theorem hang_loop (outcomes : Nat → AttemptOutcome) (fs : String → Option Nat) (t : Nat)
    (hhang : ∀ k, outcomes k = .hang) :
    ∀ (rem att δ : Nat),
      (download_attempts outcomes fs t (rem + 1) att δ).1 = timeoutResult t ∧
      attemptNums (download_attempts outcomes fs t (rem + 1) att δ).2 =
        (List.range (rem + 1)).map (· + att) ∧
      terminationCount (download_attempts outcomes fs t (rem + 1) att δ).2 = rem + 1 ∧
      sleepDelays (download_attempts outcomes fs t (rem + 1) att δ).2 =
        (List.range rem).map (fun i => δ * 2 ^ i) := by
  intro rem
  induction rem with
  | zero =>
    intro att δ
    rw [download_attempts_hang_last (hhang att)]
    simp [attemptNums, terminationCount, sleepDelays, List.filterMap, List.range_succ]
  | succ rem ih =>
    intro att δ
    obtain ⟨ih1, ih2, ih3, ih4⟩ := ih (att + 1) (δ * 2)
    rw [download_attempts_hang_step (hhang att) (Nat.succ_ne_zero rem)]
    refine ⟨ih1, ?_, ?_, ?_⟩
    · simp only [attemptNums, List.filterMap_cons] at ih2 ⊢
      rw [ih2]
      conv_rhs => rw [List.range_succ_eq_map]
      simp only [List.map_cons, List.map_map, Nat.zero_add]
      congr 1
      apply List.map_congr_left
      intro i _
      simp
      omega
    · simp only [terminationCount, List.filterMap_cons] at ih3 ⊢
      simp only [List.length_cons, Nat.succ_eq_add_one] at ih3 ⊢
      omega
    · simp only [sleepDelays, List.filterMap_cons] at ih4 ⊢
      rw [ih4]
      conv_rhs => rw [List.range_succ_eq_map]
      simp only [List.map_cons, List.map_map, pow_zero, mul_one]
      congr 1
      apply List.map_congr_left
      intro i _
      simp [pow_succ]
      ring

theorem download_attempts_badfile_last {outcomes : Nat → AttemptOutcome} {fs : String → Option Nat}
    {t att δ : Nat} {fp : Option String} {title : String}
    (houtk : outcomes att = .msg true fp title) (hbad : fileOk fs fp = false) :
    download_attempts outcomes fs t 1 att δ =
      ({success := false, file_path := Option.none, title := Option.none,
        error := some "Downloaded file not found or empty"}, [.attemptStart att]) := by
  conv_lhs => rw [download_attempts]
  rw [houtk]
  simp [hbad]

theorem download_attempts_badfile_step {outcomes : Nat → AttemptOutcome} {fs : String → Option Nat}
    {t att δ rem : Nat} {fp : Option String} {title : String}
    (houtk : outcomes att = .msg true fp title) (hbad : fileOk fs fp = false) (hrem : rem ≠ 0) :
    download_attempts outcomes fs t (rem + 1) att δ =
      ((download_attempts outcomes fs t rem (att + 1) (δ * 2)).1,
        .attemptStart att :: .slept δ ::
          (download_attempts outcomes fs t rem (att + 1) (δ * 2)).2) := by
  conv_lhs => rw [download_attempts]
  rw [houtk]
  simp [hbad, hrem]

theorem download_attempts_never_success {outcomes : Nat → AttemptOutcome}
    {fs : String → Option Nat} {t : Nat}
    (hall : ∀ k fp title, outcomes k = .msg true fp title → fileOk fs fp = false) :
    ∀ rem att δ, (download_attempts outcomes fs t rem att δ).1.success = false := by
  intro rem
  induction rem with
  | zero =>
    intro att δ
    rw [download_attempts]
  | succ rem ih =>
    intro att δ
    conv_lhs => rw [download_attempts]
    rcases houtk : outcomes att with _ | ⟨b, fp, title⟩ | _
    · by_cases hrem : rem = 0 <;> simp [hrem, ih]
    · cases b
      · by_cases hrem : rem = 0 <;> simp [hrem, ih]
      · have hbad := hall att fp title houtk
        by_cases hrem : rem = 0 <;> simp [hbad, hrem, ih]
    · by_cases hrem : rem = 0 <;> simp [hrem, ih]

/-! ### Concrete environments for closed evaluations -/

/-- Stage outcomes with successful extraction/transcription, a translation
backend with no API key, and both muxing strategies failing. -/
def okProcEnv : ProcEnv :=
  { extract := .ok ("tmp_audio.wav", 3),
    transcribe := .ok [{ start := 0, stop := 1, text := "Hello" }],
    gpt := { api_key := Option.none, respond := fun _ _ => .error "request failed" },
    muxPrimary := false, muxAlt := false, muxErrMsg := "ffmpeg failed",
    uuidHex := "abcd1234" }

/-- Task environment whose acquisition worker always hangs and whose
filesystem contains every directory but no file. -/
def hangTaskEnv : TaskEnv :=
  { proc := okProcEnv, outcomes := fun _ => .hang, fsSize := fun _ => Option.none,
    fsExists := fun _ => true, now := 0 }

/-- A worker that always reports success with a path that is never on disk. -/
def ghostOutcomes : Nat → AttemptOutcome := fun _ => .msg true (some "f.mp4") "Title"

/-- A filesystem with no files. -/
def emptyFs : String → Option Nat := fun _ => Option.none

/-- A downloader as `YouTubeDownloader.__init__` would build it with the
shared upload directory and three retries. -/
def uploadsDownloader : YouTubeDownloader :=
  { download_dir := UPLOAD_DIR, parallel := false, audio_only := false, max_retries := 3,
    rate_limit := .num 1048576, per_video_timeout := 1800, max_resolution := 1080 }

instance (s : Segment) : Decidable (goodSeg s) := by
  unfold goodSeg
  infer_instance

instance (segs : List Segment) : Decidable (wellFormedSegs segs) := by
  unfold wellFormedSegs
  exact List.decidableBAll _ segs

/-! ### The claims -/

/-- C9: for every subtitle text input, the translation stage invoked with the
working language `"en"` returns its input unchanged (identity law),
regardless of the state of the translation backend
(video_processor.py:105-107). -/
theorem C9_translate_en_identity (env : GptEnv) (srt_content : String) :
    translate_srt_content env srt_content "en" = srt_content := by
  unfold translate_srt_content
  simp

/-- C4: the timestamp conversion maps seconds to `HH:MM:SS,mmm` with
hours `= ⌊seconds/3600⌋`, minutes `= ⌊seconds/60⌋ mod 60`
(`= ⌊(seconds mod 3600)/60⌋`), whole seconds `= ⌊seconds⌋ mod 60`
(`= ⌊seconds mod 60⌋`), milliseconds `= ⌊fract(seconds)·1000⌋`, each
zero-padded to two (three for milliseconds) digits; and `3661.25 ↦
01:01:01,250`, `0 ↦ 00:00:00,000`, `59.999 ↦ 00:00:59,999`.  The rational
`59.999` evaluates like CPython's double: the IEEE-754 double nearest
`59.999` lies just above it, `(59.999 % 1) * 1000` is computed exactly at
that point, and `int()` truncates it to `999`. -/
theorem C4_format_srt_timestamp :
    (∀ q : ℚ, format_srt_timestamp q =
      ⟨pyFormat0d 2 (⌊q⌋ / 3600) ++ ':' :: (pyFormat0d 2 (⌊q⌋ / 60 % 60) ++ ':' ::
        (pyFormat0d 2 (⌊q⌋ % 60) ++ ',' :: pyFormat0d 3 ⌊Int.fract q * 1000⌋))⟩) ∧
    format_srt_timestamp 3661.25 = "01:01:01,250" ∧
    format_srt_timestamp 0 = "00:00:00,000" ∧
    format_srt_timestamp 59.999 = "00:00:59,999" := by
  refine ⟨format_srt_timestamp_spec_form, ?_, ?_, ?_⟩ <;>
    (simp only [format_srt_timestamp]
     norm_num [qmod]
     decide)

/-- C3: for every well-formed generated subtitle text (each block's stripped
text nonempty, not all digits, and newline-free), parsing it block-by-block
into index/timing/text triples with the source's scanning loop and
re-serializing the triples in the source's SRT entry layout yields output
byte-identical to the input. -/
theorem C3_srt_round_trip (segs : List Segment) (hwf : wellFormedSegs segs) :
    serialize_blocks (parseBlocks (generate_srt_content segs)) =
      generate_srt_content segs := by
  rw [parseBlocks_generate segs hwf, serialize_expected]
  rfl

/-- Witness for C3 at a concrete two-block transcript. -/
theorem C3_srt_round_trip_witness :
    wellFormedSegs [{ start := 0, stop := 1, text := "Hello" },
      { start := 1, stop := 2.5, text := " World again " }] ∧
    serialize_blocks (parseBlocks (generate_srt_content
      [{ start := 0, stop := 1, text := "Hello" },
       { start := 1, stop := 2.5, text := " World again " }])) =
      generate_srt_content [{ start := 0, stop := 1, text := "Hello" },
       { start := 1, stop := 2.5, text := " World again " }] :=
  ⟨by decide, C3_srt_round_trip _ (by decide)⟩

/-- C7: against a worker that always hangs past the per-attempt timeout, the
retry controller terminates the worker at each timeout, performs exactly
`max_retries` attempts (numbered `1..max_retries`), sleeps pure exponential
backoff delays `2, 4, 8, …` (the fixed initial delay of 2 seconds doubled
after each failed attempt, no jitter) between attempts, and returns the
timeout failure. -/
theorem C7_hanging_worker_timeout (d : YouTubeDownloader) (outcomes : Nat → AttemptOutcome)
    (fs : String → Option Nat) (hhang : ∀ k, outcomes k = .hang)
    (hm : 1 ≤ d.max_retries) :
    (download_video d outcomes fs).1 = timeoutResult d.per_video_timeout ∧
    attemptNums (download_video d outcomes fs).2 = (List.range d.max_retries).map (· + 1) ∧
    terminationCount (download_video d outcomes fs).2 = d.max_retries ∧
    sleepDelays (download_video d outcomes fs).2 =
      (List.range (d.max_retries - 1)).map (fun i => 2 * 2 ^ i) := by
  obtain ⟨m, hmr⟩ : ∃ m, d.max_retries = m + 1 := ⟨d.max_retries - 1, by omega⟩
  unfold download_video
  rw [hmr]
  have h := hang_loop outcomes fs d.per_video_timeout hhang m 1 2
  simpa [hmr] using h

/-- Witness for C7: three hanging attempts with the default timeout. -/
theorem C7_hanging_worker_timeout_witness :
    (∀ k : Nat, (fun _ : Nat => AttemptOutcome.hang) k = AttemptOutcome.hang) ∧
    1 ≤ uploadsDownloader.max_retries ∧
    (download_video uploadsDownloader (fun _ => .hang) emptyFs).1 =
      timeoutResult uploadsDownloader.per_video_timeout ∧
    attemptNums (download_video uploadsDownloader (fun _ => .hang) emptyFs).2 =
      (List.range uploadsDownloader.max_retries).map (· + 1) ∧
    terminationCount (download_video uploadsDownloader (fun _ => .hang) emptyFs).2 =
      uploadsDownloader.max_retries ∧
    sleepDelays (download_video uploadsDownloader (fun _ => .hang) emptyFs).2 =
      (List.range (uploadsDownloader.max_retries - 1)).map (fun i => 2 * 2 ^ i) := by
  refine ⟨fun _ => rfl, by decide, ?_⟩
  have h := C7_hanging_worker_timeout uploadsDownloader (fun _ => .hang) emptyFs
    (fun _ => rfl) (by decide)
  exact ⟨h.1, h.2.1, h.2.2.1, h.2.2.2⟩

/-- C6: a download attempt whose worker reports success but whose reported
file is absent or empty is counted as a failed attempt — the controller
sleeps the backoff and proceeds to the next attempt when attempts remain, it
returns the `"Downloaded file not found or empty"` failure at the last
attempt, and a run in which every reported success has a missing/empty file
never returns success. -/
theorem C6_bad_file_not_trusted (outcomes : Nat → AttemptOutcome) (fs : String → Option Nat)
    (t att δ rem : Nat) (fp : Option String) (title : String)
    (hout : outcomes att = .msg true fp title) (hbad : fileOk fs fp = false) :
    (download_attempts outcomes fs t (rem + 2) att δ =
      ((download_attempts outcomes fs t (rem + 1) (att + 1) (δ * 2)).1,
        .attemptStart att :: .slept δ ::
          (download_attempts outcomes fs t (rem + 1) (att + 1) (δ * 2)).2)) ∧
    (download_attempts outcomes fs t 1 att δ =
      ({success := false, file_path := Option.none, title := Option.none,
        error := some "Downloaded file not found or empty"}, [.attemptStart att])) ∧
    ((∀ k fp' title', outcomes k = .msg true fp' title' → fileOk fs fp' = false) →
      ∀ d : YouTubeDownloader, (download_video d outcomes fs).1.success = false) := by
  refine ⟨download_attempts_badfile_step hout hbad (Nat.succ_ne_zero rem),
    download_attempts_badfile_last hout hbad, ?_⟩
  intro hall d
  exact download_attempts_never_success hall _ _ _

/-- Witness for C6: a worker that always reports success with a file that is
never on disk. -/
theorem C6_bad_file_not_trusted_witness :
    ghostOutcomes 1 = .msg true (some "f.mp4") "Title" ∧
    fileOk emptyFs (some "f.mp4") = false ∧
    (download_attempts ghostOutcomes emptyFs 1800 3 1 2 =
      ((download_attempts ghostOutcomes emptyFs 1800 2 2 4).1,
        .attemptStart 1 :: .slept 2 :: (download_attempts ghostOutcomes emptyFs 1800 2 2 4).2)) ∧
    (download_video uploadsDownloader ghostOutcomes emptyFs).1.success = false := by
  have h := C6_bad_file_not_trusted ghostOutcomes emptyFs 1800 1 2 1 (some "f.mp4") "Title"
    rfl rfl
  exact ⟨rfl, rfl, h.1,
    h.2.2 (by intro k fp' t' hk; cases hk; rfl) uploadsDownloader⟩

/-- C1 (code-bug evidence): every remote task fails before acquisition can
begin — the constructor call at main.py:471 passes the unknown keyword
`parallel_downloads`, so the body raises, the outer `except` marks the task
`error`, and the `processing` state (with the local file path substituted for
the URL) is never reached for any input.  The claimed
`downloading → processing` transition on successful acquisition is therefore
unrealizable in this code (and even with the constructor fixed, main.py:491
would apply `os.path.exists` to the result dict of `download_video`,
raising a `TypeError`). -/
theorem C1_youtube_task_never_reaches_processing (env : TaskEnv) (rec : Assoc) (url : String)
    (parallel audio_only : Bool) (max_resolution : Nat) (embed : Bool) (lang : String) :
    (process_youtube_task env rec url parallel audio_only max_resolution embed lang).2.1 =
      ["error"] ∧
    "processing" ∉
      (process_youtube_task env rec url parallel audio_only max_resolution embed lang).2.1 ∧
    lookupKey "status"
      (process_youtube_task env rec url parallel audio_only max_resolution embed lang).1 =
      some (.str "error") ∧
    lookupKey "message"
      (process_youtube_task env rec url parallel audio_only max_resolution embed lang).1 =
      some (.str ("YouTube processing failed: " ++ unexpectedKwargMsg)) := by
  have hcon : main_construct_downloader parallel audio_only max_resolution =
      .error unexpectedKwargMsg := by
    unfold main_construct_downloader
    rw [if_neg (by decide)]
  unfold process_youtube_task
  rw [hcon]
  refine ⟨rfl, by simp, ?_, ?_⟩
  · simp only [dictUpdate, List.foldl]
    rw [lookupKey_dictSet_other _ _ _ _ (by decide), lookupKey_dictSet_other _ _ _ _ (by decide),
      lookupKey_dictSet_self]
  · simp only [dictUpdate, List.foldl]
    rw [lookupKey_dictSet_self]

/-- C2 (code-bug evidence): the status endpoint's response for a completed
upload task still contains the internal filesystem path field `srt_path`
(an `outputs/…` path) — the code deletes `file_path` and a key named
`subtitle_path` that no writer ever sets, while the actual subtitle path is
stored under `srt_path` (and the video under `video_path`), contradicting
both the claim and the code's own comment at main.py:361.  Unknown task
identifiers do raise the distinct 404 "Task not found". -/
theorem C2_get_status_exposes_srt_path :
    statusField (get_status
      [("t1", process_video_task okProcEnv
        (initial_upload_record "a.mp4" (pyOsJoin UPLOAD_DIR "t1_a.mp4") 100 false "en")
        (pyOsJoin UPLOAD_DIR "t1_a.mp4") false "en" 103)] "t1") "srt_path" =
      some (.str (pyOsJoin OUTPUT_DIR
        (pathStem (pyOsJoin UPLOAD_DIR "t1_a.mp4") ++ "_" ++ "abcd1234" ++ ".srt"))) ∧
    get_status
      [("t1", process_video_task okProcEnv
        (initial_upload_record "a.mp4" (pyOsJoin UPLOAD_DIR "t1_a.mp4") 100 false "en")
        (pyOsJoin UPLOAD_DIR "t1_a.mp4") false "en" 103)] "missing" =
      .error ⟨404, "Task not found"⟩ := by
  constructor
  · rfl
  · rfl

/-- C5: under a failing translation backend (missing credential, request
error, or malformed response — `translate_with_gpt` never raises), the
translation stage returns the original untranslated text for every block:
parsing its output yields exactly the triples of its input; and the pipeline
still reaches the `completed` state. -/
theorem C5_translation_failure_nonfatal (gpt : GptEnv) (hf : failingBackend gpt)
    (segs : List Segment) (hwf : wellFormedSegs segs) (lang : String) :
    parseBlocks (translate_srt_content gpt (generate_srt_content segs) lang) =
      parseBlocks (generate_srt_content segs) ∧
    (∀ (env : ProcEnv) (filename file_path : String) (t0 now : ℚ) (embed : Bool)
      (pr : String × ℚ), env.gpt = gpt → env.extract = .ok pr → env.transcribe = .ok segs →
      lookupKey "status" (process_video_task env
        (initial_upload_record filename file_path t0 embed lang) file_path embed lang now) =
        some (.str "completed")) := by
  constructor
  · exact parse_translate_failing gpt hf segs hwf lang
  · intro env filename file_path t0 now embed pr hgpt hx ht
    unfold process_video_task
    rw [generate_subtitles_with_video_eq, hx, ht]
    cases embed with
    | false => rfl
    | true =>
      cases hm1 : env.muxPrimary with
      | true =>
        simp only [embed_soft_subtitles, hm1, if_true]
        rfl
      | false =>
        cases hm2 : env.muxAlt with
        | true =>
          simp only [embed_soft_subtitles, hm1, hm2, Bool.false_eq_true, if_false, if_true]
          rfl
        | false =>
          simp only [embed_soft_subtitles, hm1, hm2, Bool.false_eq_true, if_false]
          rfl

/-- Witness for C5 at a keyless backend, a two-block transcript, and French
as the target language. -/
theorem C5_translation_failure_nonfatal_witness :
    failingBackend okProcEnv.gpt ∧
    wellFormedSegs [{ start := 0, stop := 1, text := "Hello" }] ∧
    parseBlocks (translate_srt_content okProcEnv.gpt
        (generate_srt_content [{ start := 0, stop := 1, text := "Hello" }]) "fr") =
      parseBlocks (generate_srt_content [{ start := 0, stop := 1, text := "Hello" }]) ∧
    lookupKey "status" (process_video_task okProcEnv
        (initial_upload_record "a.mp4" "uploads/t1_a.mp4" 100 false "fr")
        "uploads/t1_a.mp4" false "fr" 103) = some (.str "completed") := by
  have hf : failingBackend okProcEnv.gpt := Or.inl rfl
  have h := C5_translation_failure_nonfatal okProcEnv.gpt hf
    [{ start := 0, stop := 1, text := "Hello" }] (by decide) "fr"
  exact ⟨hf, by decide, h.1,
    h.2 okProcEnv "a.mp4" "uploads/t1_a.mp4" 100 103 false ("tmp_audio.wav", 3) rfl rfl rfl⟩

/-- C8: the `video_path` artifact appears in the task record only if
`embed_subtitles` was requested and one of the muxing strategies succeeded;
when both muxing strategies fail with `embed_subtitles = true`, the task
still reaches `completed`, the subtitle artifact path is present (a
non-empty `outputs/…` path), and no video artifact is recorded. -/
theorem C8_video_artifact_only_if_mux (env : ProcEnv) (filename file_path : String)
    (t0 now : ℚ) (embed : Bool) (lang : String) :
    (lookupKey "video_path" (process_video_task env
        (initial_upload_record filename file_path t0 embed lang) file_path embed lang now) ≠
        Option.none →
      embed = true ∧ (env.muxPrimary = true ∨ env.muxAlt = true)) ∧
    (env.muxPrimary = false → env.muxAlt = false → embed = true →
      ∀ (pr : String × ℚ) (segs : List Segment),
        env.extract = .ok pr → env.transcribe = .ok segs →
        lookupKey "status" (process_video_task env
          (initial_upload_record filename file_path t0 embed lang) file_path embed lang now) =
          some (.str "completed") ∧
        lookupKey "srt_path" (process_video_task env
          (initial_upload_record filename file_path t0 embed lang) file_path embed lang now) =
          some (.str (pyOsJoin OUTPUT_DIR
            (pathStem file_path ++ "_" ++ env.uuidHex ++ ".srt"))) ∧
        lookupKey "video_path" (process_video_task env
          (initial_upload_record filename file_path t0 embed lang) file_path embed lang now) =
          Option.none) := by
  constructor
  · intro hvp
    unfold process_video_task at hvp
    rw [generate_subtitles_with_video_eq] at hvp
    cases hx : env.extract with
    | error e =>
      rw [hx] at hvp
      exact absurd rfl hvp
    | ok pr =>
      rw [hx] at hvp
      cases ht : env.transcribe with
      | error e =>
        rw [ht] at hvp
        exact absurd rfl hvp
      | ok segs =>
        rw [ht] at hvp
        cases embed with
        | false => exact absurd rfl hvp
        | true =>
          cases hm1 : env.muxPrimary with
          | true => exact ⟨rfl, Or.inl rfl⟩
          | false =>
            cases hm2 : env.muxAlt with
            | true => exact ⟨rfl, Or.inr rfl⟩
            | false =>
              simp only [embed_soft_subtitles, hm1, hm2, Bool.false_eq_true, if_false,
                if_true] at hvp
              exact absurd rfl hvp
  · intro hm1 hm2 hembed pr segs hx ht
    subst hembed
    unfold process_video_task
    rw [generate_subtitles_with_video_eq, hx, ht]
    simp only [embed_soft_subtitles, hm1, hm2, Bool.false_eq_true, if_false, if_true]
    exact ⟨rfl, rfl, rfl⟩

/-- Witness for C8: both muxing strategies fail, embedding requested. -/
theorem C8_video_artifact_only_if_mux_witness :
    lookupKey "status" (process_video_task okProcEnv
        (initial_upload_record "a.mp4" "uploads/t1_a.mp4" 100 true "en")
        "uploads/t1_a.mp4" true "en" 103) = some (.str "completed") ∧
    lookupKey "srt_path" (process_video_task okProcEnv
        (initial_upload_record "a.mp4" "uploads/t1_a.mp4" 100 true "en")
        "uploads/t1_a.mp4" true "en" 103) =
      some (.str (pyOsJoin OUTPUT_DIR
        (pathStem "uploads/t1_a.mp4" ++ "_" ++ okProcEnv.uuidHex ++ ".srt"))) ∧
    lookupKey "video_path" (process_video_task okProcEnv
        (initial_upload_record "a.mp4" "uploads/t1_a.mp4" 100 true "en")
        "uploads/t1_a.mp4" true "en" 103) = Option.none :=
  (C8_video_artifact_only_if_mux okProcEnv "a.mp4" "uploads/t1_a.mp4" 100 103 true "en").2
    rfl rfl rfl ("tmp_audio.wav", 3) [{ start := 0, stop := 1, text := "Hello" }] rfl rfl

/-- C10 counterexample: a YouTube task run to its terminal state performs no
filesystem removal at all — no `rmtree` of the shared upload directory and no
unlink — even on a filesystem where every queried path exists, because the
downloader constructor raises before `downloader` is ever bound and the
terminal `finally` step therefore skips both cleanups.  This refutes the
claim that a finishing YouTube task deletes the shared upload directory. -/
theorem C10_no_deletion_counterexample :
    (process_youtube_task hangTaskEnv
      (initial_youtube_record "https://www.youtube.com/watch?v=abc" 0 false "en" false 1080)
      "https://www.youtube.com/watch?v=abc" false false 1080 false "en").2.2 =
      ([] : List FsEvent) := by
  rfl

/-- C10 amended: `YouTubeDownloader.cleanup` does remove the entire download
directory tree it was configured with — every file under the directory,
including files belonging to other tasks, while files outside survive — and
the remote-source pipeline does configure the downloader with the shared
upload directory; but the pipeline's constructor call raises a `TypeError`
(unexpected keyword argument `parallel_downloads`) before a downloader
exists, so its terminal cleanup step never runs and a finishing YouTube task
performs no filesystem removal at all. -/
theorem C10_cleanup_whole_tree_but_unreachable :
    (∀ (d : YouTubeDownloader) (files : List String) (p : String),
      p ∈ files → strStartsWith (d.download_dir ++ "/") p = true → p ∉ cleanup d files) ∧
    (∀ (d : YouTubeDownloader) (files : List String) (p : String),
      p ∈ files → strStartsWith (d.download_dir ++ "/") p = false → p ∈ cleanup d files) ∧
    uploadsDownloader.download_dir = UPLOAD_DIR ∧
    (∀ (env : TaskEnv) (rec : Assoc) (url : String) (parallel audio_only : Bool)
      (max_resolution : Nat) (embed : Bool) (lang : String),
      (process_youtube_task env rec url parallel audio_only max_resolution embed lang).2.2 =
        []) := by
  refine ⟨?_, ?_, rfl, ?_⟩
  · intro d files p hmem hpre hin
    simp [cleanup, List.mem_filter, hpre] at hin
  · intro d files p hmem hpre
    simp [cleanup, List.mem_filter, hpre, hmem]
  · intro env rec url parallel audio_only max_resolution embed lang
    have hcon : main_construct_downloader parallel audio_only max_resolution =
        .error unexpectedKwargMsg := by
      unfold main_construct_downloader
      rw [if_neg (by decide)]
    unfold process_youtube_task
    rw [hcon]
    rfl

/-- Witness for C10's amended statement: cleanup of the shared upload
directory removes another task's upload and keeps an output file; one
concrete pipeline run produces no filesystem events. -/
theorem C10_cleanup_whole_tree_but_unreachable_witness :
    ("uploads/other_task.mp4" ∈ ["uploads/other_task.mp4", "outputs/b.srt"] ∧
      strStartsWith (uploadsDownloader.download_dir ++ "/") "uploads/other_task.mp4" = true ∧
      "uploads/other_task.mp4" ∉
        cleanup uploadsDownloader ["uploads/other_task.mp4", "outputs/b.srt"]) ∧
    ("outputs/b.srt" ∈ ["uploads/other_task.mp4", "outputs/b.srt"] ∧
      strStartsWith (uploadsDownloader.download_dir ++ "/") "outputs/b.srt" = false ∧
      "outputs/b.srt" ∈ cleanup uploadsDownloader ["uploads/other_task.mp4", "outputs/b.srt"]) ∧
    (process_youtube_task hangTaskEnv
      (initial_youtube_record "https://youtu.be/x" 5 true "fr" false 720)
      "https://youtu.be/x" false false 720 true "fr").2.2 = [] := by
  refine ⟨⟨by decide, by decide, ?_⟩, ⟨by decide, by decide, ?_⟩, ?_⟩
  · exact C10_cleanup_whole_tree_but_unreachable.1 uploadsDownloader _ _ (by decide) (by decide)
  · exact C10_cleanup_whole_tree_but_unreachable.2.1 uploadsDownloader _ _ (by decide) (by decide)
  · exact C10_cleanup_whole_tree_but_unreachable.2.2.2 hangTaskEnv _ _ false false 720 true "fr"

end SubGen
